import Mathlib

set_option maxRecDepth 8192

/-!
Verification development for the ugo-os bootloader and kernel memory
subsystem.  Rust sources are shallowly embedded: `u64` values are `Nat`
together with explicit bounds or `% 2^64` where overflow matters, fallible
or panicking code returns `Option`, and stateful code is explicit state
passing.  Each definition mirrors the correspondingly named item of the
Rust source (file and symbol given in the doc comments).
-/

namespace UgoOS

/-! ## Constants (common/src/lib.rs) -/

def PAGE_SIZE : Nat := 4096

def KMEM_START : Nat := 0xFFFF800000000000

def PHYSMEM_MAX : Nat := 64 * 1024 * 1024 * 1024 * 1024

def BOOTINFO_START : Nat := KMEM_START + PHYSMEM_MAX

def BOOTINFO_SIZE : Nat := 1024 * 1024 * 1024

def KERNEL_START : Nat := BOOTINFO_START + BOOTINFO_SIZE

def PHYSADDR_SIZE : Nat := 52

def VIRTADDR_SIZE : Nat := 48

/-- `2^64`, the modulus of the Rust `u64` type. -/
def U64_MOD : Nat := 2 ^ 64

/-! ## Address arithmetic (bootloader/src/addr.rs)

`align_down` in the source is `addr & !(align - 1)` on `u64` (it panics when
`align` is not a power of two; every call site below passes a power of two).
For `1 ≤ align ≤ 2^64` the complement `!(align - 1)` equals `2^64 - align`. -/

def align_down (addr align : Nat) : Nat := addr &&& (U64_MOD - align)

def is_aligned (addr align : Nat) : Bool := align_down addr align == addr

def align_up (addr align : Nat) : Nat :=
  if is_aligned addr align then addr else align_down addr align + align

/-- `PhysAddr::new` (bootloader/src/addr.rs): panics unless the upper
`64 - PHYSADDR_SIZE` bits are zero.  `none` models the panic. -/
def physAddrNew (addr : Nat) : Option Nat :=
  if addr >>> PHYSADDR_SIZE = 0 then some addr else none

/-- `VirtAddr::new` (bootloader/src/addr.rs): asserts that bits 48..63 are
the sign extension of bit 47.  `none` models the panic. -/
def virtAddrNew (addr : Nat) : Option Nat :=
  let upper_bit := addr.testBit (VIRTADDR_SIZE - 1)
  let required_sign_extension : Nat :=
    if upper_bit then 2 ^ (64 - VIRTADDR_SIZE) - 1 else 0
  if addr >>> VIRTADDR_SIZE = required_sign_extension then some addr else none

/-! ### Claim C10 -/

theorem virtAddrNew_eq_some_shift (v : Nat) :
    virtAddrNew v = some v ↔
      v >>> 48 = (if v.testBit 47 then 2 ^ (64 - 48) - 1 else 0 : Nat) := by
  unfold virtAddrNew VIRTADDR_SIZE
  constructor
  · intro h
    by_cases hc : v >>> 48 =
        (if v.testBit (48 - 1) then 2 ^ (64 - 48) - 1 else 0 : Nat)
    · simpa using hc
    · simp only [hc, if_neg] at h
      simp at h
  · intro h
    simp only [show (48 : Nat) - 1 = 47 from rfl, h]
    simp

theorem virtAddrNew_eq_some_iff (v : Nat) (hv : v < U64_MOD) :
    virtAddrNew v = some v ↔
      ∀ i, 48 ≤ i → i < 64 → v.testBit i = v.testBit 47 := by
  rw [virtAddrNew_eq_some_shift]
  constructor
  · intro hreq i h48 h64
    have : v.testBit i = (v >>> 48).testBit (i - 48) := by
      rw [Nat.testBit_shiftRight]
      congr 1
      omega
    rw [this, hreq]
    by_cases h47 : v.testBit 47
    · simp only [h47, if_pos]
      rw [Nat.testBit_two_pow_sub_one]
      simp only [decide_eq_true_eq]
      omega
    · simp only [h47, if_neg, Bool.false_eq_true, not_false_eq_true,
        Nat.zero_testBit]
  · intro h
    have hreq : v >>> 48 =
        (if v.testBit 47 then 2 ^ (64 - 48) - 1 else 0 : Nat) := by
      apply Nat.eq_of_testBit_eq
      intro j
      rw [Nat.testBit_shiftRight]
      by_cases hj : j < 16
      · have := h (48 + j) (by omega) (by omega)
        rw [this]
        by_cases h47 : v.testBit 47
        · simp only [h47, if_pos, Nat.testBit_two_pow_sub_one]
          simp [hj]
        · simp [h47]
      · have hhi : v.testBit (48 + j) = false := by
          apply Nat.testBit_eq_false_of_lt
          calc v < 2 ^ 64 := hv
          _ ≤ 2 ^ (48 + j) := Nat.pow_le_pow_right (by norm_num) (by omega)
        rw [hhi]
        by_cases h47 : v.testBit 47
        · simp only [h47, if_pos, Nat.testBit_two_pow_sub_one]
          simp [hj]
        · simp [h47]
    exact hreq

/-- Claim C10: `VirtAddr::new(v)` succeeds (returning `v` unchanged) exactly
when bits 48 through 63 of `v` equal the sign extension of bit 47, and panics
otherwise; in particular `0x0000_7FFF_FFFF_FFFF` and `0xFFFF_8000_0000_0000`
succeed while `0x0000_8000_0000_0000` panics. -/
theorem c10_virtAddrNew_canonical (v : Nat) (hv : v < U64_MOD) :
    (virtAddrNew v = some v ↔
      ∀ i, 48 ≤ i → i < 64 → v.testBit i = v.testBit 47) ∧
    virtAddrNew 0x00007FFFFFFFFFFF = some 0x00007FFFFFFFFFFF ∧
    virtAddrNew 0xFFFF800000000000 = some 0xFFFF800000000000 ∧
    virtAddrNew 0x0000800000000000 = none := by
  refine ⟨virtAddrNew_eq_some_iff v hv, by decide, by decide, by decide⟩

/-- Witness for C10 at `v = 0xFFFF_8000_0000_0000`. -/
theorem c10_virtAddrNew_canonical_witness :
    (0xFFFF800000000000 < U64_MOD) ∧
      (virtAddrNew 0xFFFF800000000000 = some 0xFFFF800000000000 ↔
        ∀ i, 48 ≤ i → i < 64 →
          (0xFFFF800000000000 : Nat).testBit i =
            (0xFFFF800000000000 : Nat).testBit 47) :=
  ⟨by decide, (c10_virtAddrNew_canonical 0xFFFF800000000000 (by decide)).1⟩

/-! ## Virtual-address page-table indices (bootloader/src/addr.rs)

The Rust mask constants: `<<` binds looser than `-`, so
`2^9 - 1 << 12 = (2^9 - 1) << 12`, and in the extractors `+`/`*` bind
tighter than `>>`. -/

def PAGE_TABLE_IDX_MASK : Nat := (2 ^ 9 - 1) <<< 12

def PAGE_DIR_IDX_MASK : Nat := PAGE_TABLE_IDX_MASK <<< 9

def PAGE_DIR_PTR_IDX_MASK : Nat := PAGE_DIR_IDX_MASK <<< 9

def PAGE_MAP_L4_IDX_MASK : Nat := PAGE_DIR_PTR_IDX_MASK <<< 9

def get_page_table_idx (a : Nat) : Nat := (a &&& PAGE_TABLE_IDX_MASK) >>> 12

def get_page_dir_idx (a : Nat) : Nat := (a &&& PAGE_DIR_IDX_MASK) >>> (9 + 12)

def get_page_dir_ptr_idx (a : Nat) : Nat :=
  (a &&& PAGE_DIR_PTR_IDX_MASK) >>> (9 * 2 + 12)

def get_page_map_l4_idx (a : Nat) : Nat :=
  (a &&& PAGE_MAP_L4_IDX_MASK) >>> (9 * 3 + 12)

/-! ## Page-table entries (common/src/page.rs, `PageTableEntry`)

An entry is a `u64`, embedded as a `Nat` kept below `2^64`.  The source's
`self.entry & (1 << index) > 0` is `Nat.testBit`, and `!(1 << index)` on
`u64` is `2^64 - 1 - (1 <<< index)`. -/

def PRESENT_IDX : Nat := 0

def WRITE_IDX : Nat := 1

def PAGE_SIZE_IDX : Nat := 7

def NO_EXEC_IDX : Nat := 63

def ADDR_IDX : Nat := 12

def ADDR_SIZE : Nat := PHYSADDR_SIZE - ADDR_IDX

def ADDR_MASK : Nat := (2 ^ ADDR_SIZE - 1) <<< ADDR_IDX

def entryGetFlag (e index : Nat) : Bool := e.testBit index

def entrySetFlag (e : Nat) (flag : Bool) (index : Nat) : Nat :=
  (e &&& (U64_MOD - 1 - (1 <<< index))) ||| ((if flag then 1 else 0) <<< index)

def entryAddr (e : Nat) : Nat := e &&& ADDR_MASK

def entrySetAddr (e addr : Nat) : Nat :=
  (e &&& (U64_MOD - 1 - ADDR_MASK)) ||| align_down addr PAGE_SIZE

/-! ## Page-table memory

Physical memory holding page tables, as an association list:
`memRead m b i` is the 64-bit entry at index `i` of the table stored in the
frame whose base address is `b` (unwritten cells read as zero, matching the
cleared state a table has when it enters the walk).  Each Rust statement
that writes a table becomes one `memWrite`/`memClearTable`. -/

abbrev PTable : Type := List (Nat × Nat)

abbrev PTMem : Type := List (Nat × List (Nat × Nat))

def tableRead (t : List (Nat × Nat)) (i : Nat) : Nat :=
  ((t.find? (fun p => p.1 == i)).map (fun p => p.2)).getD 0

def memTable (m : PTMem) (b : Nat) : List (Nat × Nat) :=
  ((m.find? (fun p => p.1 == b)).map (fun p => p.2)).getD []

def memRead (m : PTMem) (b i : Nat) : Nat := tableRead (memTable m b) i

def memWrite (m : PTMem) (b i v : Nat) : PTMem := (b, (i, v) :: memTable m b) :: m

def memClearTable (m : PTMem) (b : Nat) : PTMem := (b, []) :: m

theorem memTable_memWrite (m : PTMem) (b i v b' : Nat) :
    memTable (memWrite m b i v) b' =
      if b' = b then (i, v) :: memTable m b else memTable m b' := by
  unfold memWrite memTable
  by_cases h : b' = b
  · subst h
    rw [List.find?_cons_of_pos _ (by simp)]
    simp
  · rw [List.find?_cons_of_neg _ (by simp [h, beq_iff_eq]; exact fun hc => h hc.symm)]
    simp [h]

theorem memRead_memWrite_self (m : PTMem) (b i v : Nat) :
    memRead (memWrite m b i v) b i = v := by
  unfold memRead tableRead
  rw [memTable_memWrite]
  simp [List.find?]

theorem memRead_memWrite_of_ne (m : PTMem) (b i v b' i' : Nat)
    (h : b' ≠ b ∨ i' ≠ i) :
    memRead (memWrite m b i v) b' i' = memRead m b' i' := by
  unfold memRead tableRead
  rw [memTable_memWrite]
  by_cases hb : b' = b
  · subst hb
    have hi : i' ≠ i := by tauto
    rw [if_pos rfl]
    rw [List.find?_cons_of_neg _ (by simp [beq_iff_eq]; exact fun hc => hi hc.symm)]
  · simp [hb]

theorem memRead_memClearTable (m : PTMem) (b b' i : Nat) :
    memRead (memClearTable m b) b' i = if b' = b then 0 else memRead m b' i := by
  unfold memRead memClearTable memTable tableRead
  by_cases h : b' = b
  · subst h
    rw [List.find?_cons_of_pos _ (by simp)]
    simp
  · rw [List.find?_cons_of_neg _ (by simp [beq_iff_eq]; exact fun hc => h hc.symm)]
    simp [h]

/-! ## Boot-phase frame allocator (bootloader/src/frame.rs) -/

structure FrameAllocator where
  alloc_start : Nat
  alloc_end : Nat
  next_frame : Nat
deriving DecidableEq, Repr

/-- `FrameAllocator::alloc_frame`: panics (`none`) when the reservation is
exhausted, otherwise returns `next_frame` and bumps it by one page. -/
def allocFrame (a : FrameAllocator) : Option (Nat × FrameAllocator) :=
  if a.alloc_end ≤ a.next_frame then none
  else some (a.next_frame, ⟨a.alloc_start, a.alloc_end, a.next_frame + PAGE_SIZE⟩)

/-! ## Bootloader mappings (bootloader/src/mappings.rs and common/src/page.rs)

`Mappings::map_page` walks PML4 → PDPT → PD → PT with
`IntermediatePageTable::get_mut_or_insert`.  During the bootloader phase the
mapping policy is the identity (`BootPageMapLevel*` wrap the shared tables
with the identity `Mapper`), so a table's frame base address is also the
address at which it is read and written.  `get_mut_or_insert` checks only
the present bit of the entry; when the entry is present it reinterprets the
entry's address as a next-level table via `PhysFrame::from_base_addr`
(which asserts page alignment; `none` models that panic). -/

structure MappingFlags where
  exec : Bool
  write : Bool
  present : Bool
deriving DecidableEq, Repr

def MappingFlags.setForEntry (fl : MappingFlags) (e : Nat) : Nat :=
  entrySetFlag (entrySetFlag (entrySetFlag e (!fl.exec) NO_EXEC_IDX)
    fl.write WRITE_IDX) fl.present PRESENT_IDX

def MappingFlags.new_rw_data : MappingFlags := ⟨false, true, true⟩

def MappingFlags.new_guard : MappingFlags := ⟨false, false, false⟩

/-- `IntermediatePageTable::get_mut_or_insert` (common/src/page.rs), with
the bootloader's bump allocator supplying fresh tables. -/
def getMutOrInsert (m : PTMem) (a : FrameAllocator) (base idx : Nat) :
    Option (Nat × PTMem × FrameAllocator) :=
  let e := memRead m base idx
  if entryGetFlag e PRESENT_IDX then
    if is_aligned (entryAddr e) PAGE_SIZE then some (entryAddr e, m, a)
    else none
  else
    match allocFrame a with
    | none => none
    | some (f, a2) =>
        let e2 := entrySetFlag (entrySetFlag (entrySetAddr e f) true PRESENT_IDX)
          true WRITE_IDX
        some (f, memWrite (memClearTable m f) base idx e2, a2)

/-- `map_page_entry` (bootloader/src/mappings.rs). -/
def mapPageEntry (m : PTMem) (l1 idx frameBase : Nat) (fl : MappingFlags) : PTMem :=
  memWrite m l1 idx (fl.setForEntry (entrySetAddr (memRead m l1 idx) frameBase))

/-- `Mappings::map_page` (bootloader/src/mappings.rs). -/
def mapPage (m : PTMem) (a : FrameAllocator) (l4base pageAddr frameBase : Nat)
    (fl : MappingFlags) : Option (PTMem × FrameAllocator) :=
  match getMutOrInsert m a l4base (get_page_map_l4_idx pageAddr) with
  | none => none
  | some (l3, m1, a1) =>
    match getMutOrInsert m1 a1 l3 (get_page_dir_ptr_idx pageAddr) with
    | none => none
    | some (l2, m2, a2) =>
      match getMutOrInsert m2 a2 l2 (get_page_dir_idx pageAddr) with
      | none => none
      | some (l1, m3, a3) =>
        some (mapPageEntry m3 l1 (get_page_table_idx pageAddr) frameBase fl, a3)

/-! ## Kernel page-table view (kernel/src/kmem/page.rs)

The kernel edits the same tables through the direct-map policy; in the
embedding a table is still addressed by its frame base.  The kernel's
intermediate-table allocator is the bitmap frame allocator; for the walk it
is only a source of fresh frames, modelled as the list of frames it will
hand out (`[]` means exhausted, and the source `expect` panic is `none`). -/

def kernelAllocFrame (fs : List Nat) : Option (Nat × List Nat) :=
  match fs with
  | [] => none
  | f :: rest => some (f, rest)

def kernelGetMutOrInsert (m : PTMem) (fs : List Nat) (base idx : Nat) :
    Option (Nat × PTMem × List Nat) :=
  let e := memRead m base idx
  if entryGetFlag e PRESENT_IDX then
    if is_aligned (entryAddr e) PAGE_SIZE then some (entryAddr e, m, fs)
    else none
  else
    match kernelAllocFrame fs with
    | none => none
    | some (f, fs2) =>
        let e2 := entrySetFlag (entrySetFlag (entrySetAddr e f) true PRESENT_IDX)
          true WRITE_IDX
        some (f, memWrite (memClearTable m f) base idx e2, fs2)

/-- `MappingType::DataRw.apply` (kernel/src/kmem/page.rs). -/
def dataRwApply (e : Nat) : Nat :=
  entrySetFlag (entrySetFlag (entrySetFlag e true NO_EXEC_IDX) true WRITE_IDX)
    true PRESENT_IDX

/-- `KernelPageTables::get_entry` (kernel/src/kmem/page.rs): walk the four
levels, short-circuiting on a present PDPT entry with the page-size bit;
`none` covers both a non-present intermediate entry (`Option::None` in the
source) and the alignment-assert panic of `PhysFrame::from_base_addr`. -/
def kernelGetEntry (m : PTMem) (l4base addr : Nat) : Option Nat :=
  let e4 := memRead m l4base (get_page_map_l4_idx addr)
  if entryGetFlag e4 PRESENT_IDX then
    if is_aligned (entryAddr e4) PAGE_SIZE then
      let l3 := entryAddr e4
      let e3 := memRead m l3 (get_page_dir_ptr_idx addr)
      if entryGetFlag e3 PRESENT_IDX && entryGetFlag e3 PAGE_SIZE_IDX then
        some e3
      else
        if entryGetFlag e3 PRESENT_IDX then
          if is_aligned (entryAddr e3) PAGE_SIZE then
            let l2 := entryAddr e3
            let e2 := memRead m l2 (get_page_dir_idx addr)
            if entryGetFlag e2 PRESENT_IDX then
              if is_aligned (entryAddr e2) PAGE_SIZE then
                some (memRead m (entryAddr e2) (get_page_table_idx addr))
              else none
            else none
          else none
        else none
    else none
  else none

/-- `KernelPageTables::alloc_and_map_page` (kernel/src/kmem/page.rs): after
obtaining the PDPT it panics (`none`) when the PDPT entry for the address is
present with the page-size bit set; otherwise it continues the walk,
allocates a backing frame, and installs a `DataRw` leaf entry. -/
def kernelAllocAndMapPage (m : PTMem) (l4base pageAddr : Nat) (fs : List Nat) :
    Option (PTMem × List Nat) :=
  match kernelGetMutOrInsert m fs l4base (get_page_map_l4_idx pageAddr) with
  | none => none
  | some (l3, m1, fs1) =>
    let e3 := memRead m1 l3 (get_page_dir_ptr_idx pageAddr)
    if entryGetFlag e3 PRESENT_IDX && entryGetFlag e3 PAGE_SIZE_IDX then
      none
    else
      match kernelGetMutOrInsert m1 fs1 l3 (get_page_dir_ptr_idx pageAddr) with
      | none => none
      | some (l2, m2, fs2) =>
        match kernelGetMutOrInsert m2 fs2 l2 (get_page_dir_idx pageAddr) with
        | none => none
        | some (l1, m3, fs3) =>
          match kernelAllocFrame fs3 with
          | none => none
          | some (bf, fs4) =>
            some (memWrite m3 l1 (get_page_table_idx pageAddr)
              (dataRwApply (entrySetAddr
                (memRead m3 l1 (get_page_table_idx pageAddr)) bf)), fs4)

/-! ## Bit-level facts about page-table entries -/

theorem testBit_of_ge (a j n : Nat) (ha : a < 2 ^ n) (hj : n ≤ j) :
    a.testBit j = false := by
  apply Nat.testBit_eq_false_of_lt
  calc a < 2 ^ n := ha
  _ ≤ 2 ^ j := Nat.pow_le_pow_right (by norm_num) hj

theorem testBit_one_shift (i j : Nat) :
    ((1 : Nat) <<< i).testBit j = decide (j = i) := by
  rw [Nat.one_shiftLeft]
  by_cases h : i = j
  · subst h
    simp [Nat.testBit_two_pow_self]
  · rw [Nat.testBit_two_pow_of_ne h]
    have : decide (j = i) = false := by
      simp only [decide_eq_false_iff_not]
      exact fun hc => h hc.symm
    rw [this]

theorem testBit_entrySetFlag (e : Nat) (b : Bool) (i j : Nat) (hj : j < 64)
    (hxor : (2 : Nat) ^ 64 - 1 - (1 <<< i) = (2 ^ 64 - 1) ^^^ (1 <<< i)) :
    (entrySetFlag e b i).testBit j = if j = i then b else e.testBit j := by
  unfold entrySetFlag U64_MOD
  rw [hxor]
  rw [Nat.testBit_lor, Nat.testBit_land, Nat.testBit_xor,
    Nat.testBit_two_pow_sub_one, testBit_one_shift, Nat.testBit_shiftLeft]
  have hone : ∀ k : Nat, Nat.testBit 1 k = decide (k = 0) := by
    intro k
    have h0 := testBit_one_shift 0 k
    simpa using h0
  by_cases h : j = i
  · subst h
    have h1 : (if b then (1 : Nat) else 0).testBit (j - j) = b := by
      cases b
      · simp
      · simp [hone]
    simp only [h1, hj]
    cases b <;> simp
  · by_cases hle : i ≤ j
    · have hpos : j - i ≠ 0 := by omega
      have h1 : (if b then (1 : Nat) else 0).testBit (j - i) = false := by
        cases b
        · simp
        · simp [hone, hpos]
      simp [h1, hj, h]
    · simp [hle, hj, h]

theorem testBit_ADDR_MASK (j : Nat) :
    ADDR_MASK.testBit j = decide (12 ≤ j ∧ j < 52) := by
  unfold ADDR_MASK ADDR_SIZE ADDR_IDX PHYSADDR_SIZE
  rw [Nat.testBit_shiftLeft, Nat.testBit_two_pow_sub_one]
  rw [show ((52 : Nat) - 12 = 40) from rfl]
  by_cases h12 : 12 ≤ j
  · by_cases h40 : j - 12 < 40
    · have hc : 12 ≤ j ∧ j < 52 := by omega
      simp [h12, h40, hc]
    · have hc : ¬ (12 ≤ j ∧ j < 52) := by omega
      simp [h12, h40, hc]
      omega
  · have hc : ¬ (12 ≤ j ∧ j < 52) := by omega
    simp [h12, hc]

theorem testBit_align_down_page (a j : Nat) :
    (align_down a PAGE_SIZE).testBit j = (a.testBit j && decide (12 ≤ j ∧ j < 64)) := by
  unfold align_down U64_MOD PAGE_SIZE
  have hxor : (2 : Nat) ^ 64 - 4096 = (2 ^ 64 - 1) ^^^ (2 ^ 12 - 1) := by decide
  rw [hxor, Nat.testBit_land, Nat.testBit_xor, Nat.testBit_two_pow_sub_one,
    Nat.testBit_two_pow_sub_one]
  congr 1
  by_cases h12 : j < 12
  · have h64 : j < 64 := by omega
    have hc : ¬ (12 ≤ j ∧ j < 64) := by omega
    simp [h12, h64, hc]
  · by_cases h64 : j < 64
    · have hc : 12 ≤ j ∧ j < 64 := by omega
      simp [h12, h64, hc]
    · have hc : ¬ (12 ≤ j ∧ j < 64) := by omega
      simp [h12, h64, hc]

theorem testBit_entrySetAddr (e a j : Nat) (hj : j < 64) (ha : a < 2 ^ 52) :
    (entrySetAddr e a).testBit j =
      if 12 ≤ j ∧ j < 52 then a.testBit j else e.testBit j := by
  unfold entrySetAddr U64_MOD
  have hxor : (2 : Nat) ^ 64 - 1 - ADDR_MASK = (2 ^ 64 - 1) ^^^ ADDR_MASK := by decide
  rw [hxor, Nat.testBit_lor, Nat.testBit_land, Nat.testBit_xor,
    Nat.testBit_two_pow_sub_one, testBit_ADDR_MASK, testBit_align_down_page]
  by_cases h12 : 12 ≤ j
  · by_cases h52 : j < 52
    · have hc : 12 ≤ j ∧ j < 52 := by omega
      have hc2 : 12 ≤ j ∧ j < 64 := by omega
      simp [hj, hc, hc2]
    · have hc : ¬ (12 ≤ j ∧ j < 52) := by omega
      have hc2 : 12 ≤ j ∧ j < 64 := by omega
      have hhi : a.testBit j = false := testBit_of_ge a j 52 ha (by omega)
      simp [hj, hc, hc2, hhi]
      rw [Bool.and_comm]
  · have hc : ¬ (12 ≤ j ∧ j < 52) := by omega
    have hc2 : ¬ (12 ≤ j ∧ j < 64) := by omega
    simp [hj, hc, hc2]
    intro h1 h2
    exact absurd h2 h12

theorem entryAddr_testBit (e j : Nat) :
    (entryAddr e).testBit j = (e.testBit j && decide (12 ≤ j ∧ j < 52)) := by
  unfold entryAddr
  rw [Nat.testBit_land, testBit_ADDR_MASK]

theorem entryAddr_lt (e : Nat) : entryAddr e < 2 ^ 52 := by
  unfold entryAddr
  calc e &&& ADDR_MASK ≤ ADDR_MASK := Nat.and_le_right
  _ < 2 ^ 52 := by decide

theorem is_aligned_entryAddr (e : Nat) : is_aligned (entryAddr e) PAGE_SIZE = true := by
  unfold is_aligned
  rw [beq_iff_eq]
  apply Nat.eq_of_testBit_eq
  intro j
  rw [testBit_align_down_page, entryAddr_testBit]
  by_cases h12 : 12 ≤ j
  · by_cases h52 : j < 52
    · have hc : 12 ≤ j ∧ j < 52 := by omega
      have hc2 : 12 ≤ j ∧ j < 64 := by omega
      simp [hc, hc2]
    · have hc : ¬ (12 ≤ j ∧ j < 52) := by omega
      simp [hc]
  · have hc : ¬ (12 ≤ j ∧ j < 52) := by omega
    simp [hc]

theorem aligned_testBit_low (a j : Nat) (hal : is_aligned a PAGE_SIZE = true)
    (hj : j < 12) : a.testBit j = false := by
  unfold is_aligned at hal
  rw [beq_iff_eq] at hal
  have h := congrArg (fun x => x.testBit j) hal
  simp only [testBit_align_down_page] at h
  rw [← h]
  have hc : ¬ (12 ≤ j ∧ j < 64) := by omega
  simp [hc]

theorem entryAddr_entrySetAddr (e a : Nat) (ha : a < 2 ^ 52)
    (hal : is_aligned a PAGE_SIZE = true) : entryAddr (entrySetAddr e a) = a := by
  apply Nat.eq_of_testBit_eq
  intro j
  rw [entryAddr_testBit]
  by_cases hj : j < 64
  · rw [testBit_entrySetAddr e a j hj ha]
    by_cases h12 : 12 ≤ j
    · by_cases h52 : j < 52
      · have hc : 12 ≤ j ∧ j < 52 := by omega
        simp [hc]
      · have hc : ¬ (12 ≤ j ∧ j < 52) := by omega
        have hhi : a.testBit j = false := testBit_of_ge a j 52 ha (by omega)
        simp [hc, hhi]
    · have hc : ¬ (12 ≤ j ∧ j < 52) := by omega
      simp [hc, aligned_testBit_low a j hal (by omega)]
  · have hc : ¬ (12 ≤ j ∧ j < 52) := by omega
    have h2 : a.testBit j = false := testBit_of_ge a j 52 ha (by omega)
    simp [hc, h2]

/-! ## Entry field lemmas at the concrete flag indices -/

theorem xor_mask_0 : (2 : Nat) ^ 64 - 1 - (1 <<< PRESENT_IDX) = (2 ^ 64 - 1) ^^^ (1 <<< PRESENT_IDX) := by decide

theorem xor_mask_1 : (2 : Nat) ^ 64 - 1 - (1 <<< WRITE_IDX) = (2 ^ 64 - 1) ^^^ (1 <<< WRITE_IDX) := by decide

theorem xor_mask_7 : (2 : Nat) ^ 64 - 1 - (1 <<< PAGE_SIZE_IDX) = (2 ^ 64 - 1) ^^^ (1 <<< PAGE_SIZE_IDX) := by decide

theorem xor_mask_63 : (2 : Nat) ^ 64 - 1 - (1 <<< NO_EXEC_IDX) = (2 ^ 64 - 1) ^^^ (1 <<< NO_EXEC_IDX) := by decide

theorem entryAddr_entrySetFlag (e : Nat) (b : Bool) (i : Nat) (hi : i < 64)
    (hout : i < 12 ∨ 52 ≤ i)
    (hxor : (2 : Nat) ^ 64 - 1 - (1 <<< i) = (2 ^ 64 - 1) ^^^ (1 <<< i)) :
    entryAddr (entrySetFlag e b i) = entryAddr e := by
  apply Nat.eq_of_testBit_eq
  intro j
  rw [entryAddr_testBit, entryAddr_testBit]
  by_cases hj : j < 64
  · rw [testBit_entrySetFlag e b i j hj hxor]
    by_cases hji : j = i
    · subst hji
      have hc : ¬ (12 ≤ j ∧ j < 52) := by omega
      simp [hc]
    · simp [hji]
  · have hc : ¬ (12 ≤ j ∧ j < 52) := by omega
    simp [hc]

theorem entryGetFlag_entrySetFlag_eq (e : Nat) (b : Bool) (i : Nat) (hi : i < 64)
    (hxor : (2 : Nat) ^ 64 - 1 - (1 <<< i) = (2 ^ 64 - 1) ^^^ (1 <<< i)) :
    entryGetFlag (entrySetFlag e b i) i = b := by
  unfold entryGetFlag
  rw [testBit_entrySetFlag e b i i hi hxor]
  simp

theorem entryGetFlag_entrySetFlag_ne (e : Nat) (b : Bool) (i j : Nat) (hj : j < 64)
    (hne : j ≠ i)
    (hxor : (2 : Nat) ^ 64 - 1 - (1 <<< i) = (2 ^ 64 - 1) ^^^ (1 <<< i)) :
    entryGetFlag (entrySetFlag e b i) j = entryGetFlag e j := by
  unfold entryGetFlag
  rw [testBit_entrySetFlag e b i j hj hxor]
  simp [hne]

theorem entryGetFlag_entrySetAddr_low (e a j : Nat) (hj : j < 12) (ha : a < 2 ^ 52) :
    entryGetFlag (entrySetAddr e a) j = entryGetFlag e j := by
  unfold entryGetFlag
  rw [testBit_entrySetAddr e a j (by omega) ha]
  have hc : ¬ (12 ≤ j ∧ j < 52) := by omega
  simp [hc]

/-- The intermediate entry written by `get_mut_or_insert`
(`set_addr`, `set_present(true)`, `set_write(true)`) is present and holds the
inserted frame base. -/
theorem intermediate_entry_present (e f : Nat) :
    entryGetFlag (entrySetFlag (entrySetFlag (entrySetAddr e f) true PRESENT_IDX)
      true WRITE_IDX) PRESENT_IDX = true := by
  rw [entryGetFlag_entrySetFlag_ne _ _ _ _ (by decide) (by decide) xor_mask_1]
  exact entryGetFlag_entrySetFlag_eq _ _ _ (by decide) xor_mask_0

theorem intermediate_entry_addr (e f : Nat) (hf : f < 2 ^ 52)
    (hfa : is_aligned f PAGE_SIZE = true) :
    entryAddr (entrySetFlag (entrySetFlag (entrySetAddr e f) true PRESENT_IDX)
      true WRITE_IDX) = f := by
  rw [entryAddr_entrySetFlag _ _ _ (by decide) (by decide) xor_mask_1]
  rw [entryAddr_entrySetFlag _ _ _ (by decide) (by decide) xor_mask_0]
  exact entryAddr_entrySetAddr e f hf hfa

/-- Fields of the leaf entry written by `map_page_entry`:
`set_addr(frame)` then `MappingFlags::set_for_entry`
(`set_no_exec(!exec)`, `set_write(write)`, `set_present(present)`). -/
theorem leaf_entry_fields (e fb : Nat) (fl : MappingFlags) (hfb : fb < 2 ^ 52)
    (hfba : is_aligned fb PAGE_SIZE = true) :
    entryAddr (fl.setForEntry (entrySetAddr e fb)) = fb ∧
    entryGetFlag (fl.setForEntry (entrySetAddr e fb)) NO_EXEC_IDX = !fl.exec ∧
    entryGetFlag (fl.setForEntry (entrySetAddr e fb)) WRITE_IDX = fl.write ∧
    entryGetFlag (fl.setForEntry (entrySetAddr e fb)) PRESENT_IDX = fl.present := by
  unfold MappingFlags.setForEntry
  refine ⟨?_, ?_, ?_, ?_⟩
  · rw [entryAddr_entrySetFlag _ _ _ (by decide) (by decide) xor_mask_0]
    rw [entryAddr_entrySetFlag _ _ _ (by decide) (by decide) xor_mask_1]
    rw [entryAddr_entrySetFlag _ _ _ (by decide) (by decide) xor_mask_63]
    exact entryAddr_entrySetAddr e fb hfb hfba
  · rw [entryGetFlag_entrySetFlag_ne _ _ _ _ (by decide) (by decide) xor_mask_0]
    rw [entryGetFlag_entrySetFlag_ne _ _ _ _ (by decide) (by decide) xor_mask_1]
    exact entryGetFlag_entrySetFlag_eq _ _ _ (by decide) xor_mask_63
  · rw [entryGetFlag_entrySetFlag_ne _ _ _ _ (by decide) (by decide) xor_mask_0]
    exact entryGetFlag_entrySetFlag_eq _ _ _ (by decide) xor_mask_1
  · exact entryGetFlag_entrySetFlag_eq _ _ _ (by decide) xor_mask_0

/-- What a successful `get_mut_or_insert` guarantees: the entry at
`(base, idx)` is now present and points at the returned table `t`, and no
cell outside the frames `base` and `t` changed. -/
theorem getMutOrInsert_some (m : PTMem) (a : FrameAllocator) (base idx t : Nat)
    (mOut : PTMem) (aOut : FrameAllocator)
    (ht52 : t < 2 ^ 52) (htal : is_aligned t PAGE_SIZE = true)
    (h : getMutOrInsert m a base idx = some (t, mOut, aOut)) :
    entryGetFlag (memRead mOut base idx) PRESENT_IDX = true ∧
    entryAddr (memRead mOut base idx) = t ∧
    (∀ b i, b ≠ base → b ≠ t → memRead mOut b i = memRead m b i) := by
  unfold getMutOrInsert at h
  by_cases hp : entryGetFlag (memRead m base idx) PRESENT_IDX
  · rw [if_pos hp, if_pos (is_aligned_entryAddr _)] at h
    simp only [Option.some.injEq, Prod.mk.injEq] at h
    obtain ⟨h1, h2, h3⟩ := h
    subst h2
    refine ⟨hp, h1 ▸ rfl, fun b i _ _ => rfl⟩
  · rw [if_neg hp] at h
    cases hall : allocFrame a with
    | none =>
      rw [hall] at h
      simp at h
    | some fa =>
      rw [hall] at h
      simp only [Option.some.injEq, Prod.mk.injEq] at h
      obtain ⟨h1, h2, h3⟩ := h
      subst h1 h2
      refine ⟨?_, ?_, ?_⟩
      · rw [memRead_memWrite_self]
        exact intermediate_entry_present _ _
      · rw [memRead_memWrite_self]
        exact intermediate_entry_addr _ _ ht52 htal
      · intro b i hb hbt
        rw [memRead_memWrite_of_ne _ _ _ _ _ _ (Or.inl hb)]
        rw [memRead_memClearTable]
        rw [if_neg hbt]

/-! ### Claim C5

`KernelPageTables::alloc_and_map_page` checks the PDPT entry for
present-and-page-size and panics; `Mappings::map_page` performs no such
check: `get_mut_or_insert` tests only the present bit, so on a present
huge-page PDPT entry it takes `entry.addr()` — the 1 GiB data frame — and
continues the walk inside that frame as though it were a page directory. -/

theorem kernelAllocAndMapPage_huge_panics (m : PTMem) (fs : List Nat)
    (l4base pageAddr : Nat)
    (hpres : entryGetFlag (memRead m l4base (get_page_map_l4_idx pageAddr))
      PRESENT_IDX = true)
    (hhpres : entryGetFlag (memRead m
      (entryAddr (memRead m l4base (get_page_map_l4_idx pageAddr)))
      (get_page_dir_ptr_idx pageAddr)) PRESENT_IDX = true)
    (hhsize : entryGetFlag (memRead m
      (entryAddr (memRead m l4base (get_page_map_l4_idx pageAddr)))
      (get_page_dir_ptr_idx pageAddr)) PAGE_SIZE_IDX = true) :
    kernelAllocAndMapPage m l4base pageAddr fs = none := by
  unfold kernelAllocAndMapPage kernelGetMutOrInsert
  simp only [hpres, if_pos, is_aligned_entryAddr]
  simp [hhpres, hhsize]

/-- Demonstration state: a PML4 at `0x1000` whose entry for `KMEM_START`
points at a PDPT at `0x2000`, whose entry for `KMEM_START` is a present,
writable, huge-page (page-size bit) entry targeting the 1 GiB-aligned frame
`0x4000_0000` — exactly what `direct_map_huge_page` writes. -/
def c5DemoL4 : Nat := 0x1000

def c5DemoL3 : Nat := 0x2000

def c5DemoHugeFrame : Nat := 0x40000000

def c5DemoPage : Nat := KMEM_START

def c5DemoL4Entry : Nat :=
  entrySetFlag (entrySetFlag (entrySetAddr 0 c5DemoL3) true PRESENT_IDX)
    true WRITE_IDX

/-- Built in the order `direct_map_huge_page` sets the fields:
no-exec, write, present, page-size, then the address. -/
def c5DemoHugeEntry : Nat :=
  entrySetAddr (entrySetFlag (entrySetFlag (entrySetFlag
    (entrySetFlag 0 true NO_EXEC_IDX) true WRITE_IDX) true PRESENT_IDX)
    true PAGE_SIZE_IDX) c5DemoHugeFrame

def c5DemoMem : PTMem :=
  [(c5DemoL4, [(get_page_map_l4_idx c5DemoPage, c5DemoL4Entry)]),
   (c5DemoL3, [(get_page_dir_ptr_idx c5DemoPage, c5DemoHugeEntry)])]

def c5DemoAlloc : FrameAllocator := ⟨0x3000, 0x8000, 0x3000⟩

/-- Counterexample to claim C5 as stated: on a walk whose PDPT entry is
present with the page-size bit set, the bootloader's `map_page` does not
refuse — it succeeds, reinterprets the huge-page entry's address
`0x4000_0000` as a page directory, and writes a fresh intermediate entry
(value `0x3003`) into that huge-page data frame, which previously read 0. -/
theorem c5_counterexample_mapPage_descends :
    entryGetFlag c5DemoHugeEntry PRESENT_IDX = true ∧
    entryGetFlag c5DemoHugeEntry PAGE_SIZE_IDX = true ∧
    entryAddr c5DemoHugeEntry = c5DemoHugeFrame ∧
    memRead c5DemoMem c5DemoHugeFrame (get_page_dir_idx c5DemoPage) = 0 ∧
    (mapPage c5DemoMem c5DemoAlloc c5DemoL4 c5DemoPage 0x5000
        MappingFlags.new_rw_data).map
      (fun r => memRead r.1 c5DemoHugeFrame (get_page_dir_idx c5DemoPage)) =
      some 0x3003 := by
  refine ⟨by decide, by decide, by decide, by decide, by decide⟩

/-- Claim C5 (amended): for every walk that reaches a present PDPT entry
with the page-size bit set, the kernel's `alloc_and_map_page` panics instead
of installing a 4 KiB mapping; the bootloader's `map_page`, however, has no
huge-page check — as the accompanying concrete run shows, it descends into
the huge-page entry's target frame, treating it as an intermediate table and
writing into it. -/
theorem c5_huge_page_checks (m : PTMem) (fs : List Nat) (l4base pageAddr : Nat)
    (hpres : entryGetFlag (memRead m l4base (get_page_map_l4_idx pageAddr))
      PRESENT_IDX = true)
    (hhpres : entryGetFlag (memRead m
      (entryAddr (memRead m l4base (get_page_map_l4_idx pageAddr)))
      (get_page_dir_ptr_idx pageAddr)) PRESENT_IDX = true)
    (hhsize : entryGetFlag (memRead m
      (entryAddr (memRead m l4base (get_page_map_l4_idx pageAddr)))
      (get_page_dir_ptr_idx pageAddr)) PAGE_SIZE_IDX = true) :
    kernelAllocAndMapPage m l4base pageAddr fs = none ∧
    (mapPage c5DemoMem c5DemoAlloc c5DemoL4 c5DemoPage 0x5000
        MappingFlags.new_rw_data).map
      (fun r => memRead r.1 c5DemoHugeFrame (get_page_dir_idx c5DemoPage)) =
      some 0x3003 :=
  ⟨kernelAllocAndMapPage_huge_panics m fs l4base pageAddr hpres hhpres hhsize,
    by decide⟩

/-- Witness for C5 (amended) at the demonstration state. -/
theorem c5_huge_page_checks_witness :
    kernelAllocAndMapPage c5DemoMem c5DemoL4 c5DemoPage [0x9000] = none ∧
    (mapPage c5DemoMem c5DemoAlloc c5DemoL4 c5DemoPage 0x5000
        MappingFlags.new_rw_data).map
      (fun r => memRead r.1 c5DemoHugeFrame (get_page_dir_idx c5DemoPage)) =
      some 0x3003 :=
  c5_huge_page_checks c5DemoMem [0x9000] c5DemoL4 c5DemoPage
    (by decide) (by decide) (by decide)

/-! ### Claim C8 -/

/-- Claim C8: for every frame, page and flags (page-aligned frame base below
`2^52`; the three walk steps succeed, yielding tables `l3`, `l2`, `l1` that
are page-aligned, below `2^52`, pairwise distinct and distinct from the
PML4 frame; and the PDPT entry after the walk does not carry the huge-page
bit, i.e. the walk is not covered by a huge-page entry): reading the leaf
entry via the kernel's `get_entry` immediately after the bootloader's
`map_page(frame, page, flags)` yields an entry whose physical address field
equals the frame's base address and whose no-execute, write and present
bits match the given flags. -/
theorem c8_map_page_get_entry_roundtrip (m : PTMem) (a : FrameAllocator)
    (l4base pageAddr frameBase : Nat) (fl : MappingFlags)
    (l3 l2 l1 : Nat) (m1 m2 m3 : PTMem) (a1 a2 a3 : FrameAllocator)
    (h1 : getMutOrInsert m a l4base (get_page_map_l4_idx pageAddr) =
      some (l3, m1, a1))
    (h2 : getMutOrInsert m1 a1 l3 (get_page_dir_ptr_idx pageAddr) =
      some (l2, m2, a2))
    (h3 : getMutOrInsert m2 a2 l2 (get_page_dir_idx pageAddr) =
      some (l1, m3, a3))
    (hl3 : l3 < 2 ^ 52) (hl3a : is_aligned l3 PAGE_SIZE = true)
    (hl2 : l2 < 2 ^ 52) (hl2a : is_aligned l2 PAGE_SIZE = true)
    (hl1 : l1 < 2 ^ 52) (hl1a : is_aligned l1 PAGE_SIZE = true)
    (hfb : frameBase < 2 ^ 52) (hfba : is_aligned frameBase PAGE_SIZE = true)
    (hd43 : l4base ≠ l3) (hd42 : l4base ≠ l2) (hd41 : l4base ≠ l1)
    (hd32 : l3 ≠ l2) (hd31 : l3 ≠ l1) (hd21 : l2 ≠ l1)
    (hnohuge : entryGetFlag (memRead m2 l3 (get_page_dir_ptr_idx pageAddr))
      PAGE_SIZE_IDX = false) :
    mapPage m a l4base pageAddr frameBase fl =
      some (mapPageEntry m3 l1 (get_page_table_idx pageAddr) frameBase fl, a3) ∧
    kernelGetEntry (mapPageEntry m3 l1 (get_page_table_idx pageAddr) frameBase fl)
        l4base pageAddr =
      some (fl.setForEntry (entrySetAddr
        (memRead m3 l1 (get_page_table_idx pageAddr)) frameBase)) ∧
    entryAddr (fl.setForEntry (entrySetAddr
      (memRead m3 l1 (get_page_table_idx pageAddr)) frameBase)) = frameBase ∧
    entryGetFlag (fl.setForEntry (entrySetAddr
      (memRead m3 l1 (get_page_table_idx pageAddr)) frameBase)) NO_EXEC_IDX =
      !fl.exec ∧
    entryGetFlag (fl.setForEntry (entrySetAddr
      (memRead m3 l1 (get_page_table_idx pageAddr)) frameBase)) WRITE_IDX =
      fl.write ∧
    entryGetFlag (fl.setForEntry (entrySetAddr
      (memRead m3 l1 (get_page_table_idx pageAddr)) frameBase)) PRESENT_IDX =
      fl.present := by
  obtain ⟨s1p, s1a, s1u⟩ :=
    getMutOrInsert_some m a l4base (get_page_map_l4_idx pageAddr) l3 m1 a1
      hl3 hl3a h1
  obtain ⟨s2p, s2a, s2u⟩ :=
    getMutOrInsert_some m1 a1 l3 (get_page_dir_ptr_idx pageAddr) l2 m2 a2
      hl2 hl2a h2
  obtain ⟨s3p, s3a, s3u⟩ :=
    getMutOrInsert_some m2 a2 l2 (get_page_dir_idx pageAddr) l1 m3 a3
      hl1 hl1a h3
  obtain ⟨lfa, lfn, lfw, lfp⟩ :=
    leaf_entry_fields (memRead m3 l1 (get_page_table_idx pageAddr)) frameBase
      fl hfb hfba
  have hmapeq : mapPage m a l4base pageAddr frameBase fl =
      some (mapPageEntry m3 l1 (get_page_table_idx pageAddr) frameBase fl, a3) := by
    simp only [mapPage, h1, h2, h3]
  have e4_eq : memRead (mapPageEntry m3 l1 (get_page_table_idx pageAddr)
      frameBase fl) l4base (get_page_map_l4_idx pageAddr) =
      memRead m1 l4base (get_page_map_l4_idx pageAddr) := by
    unfold mapPageEntry
    rw [memRead_memWrite_of_ne _ _ _ _ _ _ (Or.inl hd41)]
    rw [s3u l4base _ hd42 hd41, s2u l4base _ hd43 hd42]
  have e3_eq : memRead (mapPageEntry m3 l1 (get_page_table_idx pageAddr)
      frameBase fl) l3 (get_page_dir_ptr_idx pageAddr) =
      memRead m2 l3 (get_page_dir_ptr_idx pageAddr) := by
    unfold mapPageEntry
    rw [memRead_memWrite_of_ne _ _ _ _ _ _ (Or.inl hd31)]
    rw [s3u l3 _ hd32 hd31]
  have e2_eq : memRead (mapPageEntry m3 l1 (get_page_table_idx pageAddr)
      frameBase fl) l2 (get_page_dir_idx pageAddr) =
      memRead m3 l2 (get_page_dir_idx pageAddr) := by
    unfold mapPageEntry
    rw [memRead_memWrite_of_ne _ _ _ _ _ _ (Or.inl hd21)]
  have leaf_eq : memRead (mapPageEntry m3 l1 (get_page_table_idx pageAddr)
      frameBase fl) l1 (get_page_table_idx pageAddr) =
      fl.setForEntry (entrySetAddr
        (memRead m3 l1 (get_page_table_idx pageAddr)) frameBase) := by
    unfold mapPageEntry
    rw [memRead_memWrite_self]
  refine ⟨hmapeq, ?_, lfa, lfn, lfw, lfp⟩
  simp only [kernelGetEntry]
  rw [e4_eq, s1p, s1a, hl3a, e3_eq, s2p, hnohuge, s2a, hl2a, e2_eq, s3p, s3a,
    hl1a, leaf_eq]
  simp

/-- Demonstration inputs for C8: empty tables apart from a PML4 at `0x1000`,
the bump allocator starting at `0x2000`, mapping `KERNEL_START` to frame
`0x100000` read-write. -/
def c8DemoAlloc : FrameAllocator := ⟨0x2000, 0x8000, 0x2000⟩

def c8R1 : Nat × PTMem × FrameAllocator :=
  (getMutOrInsert [] c8DemoAlloc 0x1000
    (get_page_map_l4_idx KERNEL_START)).getD (0, [], ⟨0, 0, 0⟩)

def c8R2 : Nat × PTMem × FrameAllocator :=
  (getMutOrInsert c8R1.2.1 c8R1.2.2 0x2000
    (get_page_dir_ptr_idx KERNEL_START)).getD (0, [], ⟨0, 0, 0⟩)

def c8R3 : Nat × PTMem × FrameAllocator :=
  (getMutOrInsert c8R2.2.1 c8R2.2.2 0x3000
    (get_page_dir_idx KERNEL_START)).getD (0, [], ⟨0, 0, 0⟩)

/-- Witness for C8: the round-trip at a concrete clean state. -/
theorem c8_map_page_get_entry_roundtrip_witness :
    mapPage [] c8DemoAlloc 0x1000 KERNEL_START 0x100000 MappingFlags.new_rw_data =
      some (mapPageEntry c8R3.2.1 0x4000 (get_page_table_idx KERNEL_START)
        0x100000 MappingFlags.new_rw_data, c8R3.2.2) ∧
    kernelGetEntry (mapPageEntry c8R3.2.1 0x4000 (get_page_table_idx KERNEL_START)
        0x100000 MappingFlags.new_rw_data) 0x1000 KERNEL_START =
      some (MappingFlags.new_rw_data.setForEntry (entrySetAddr
        (memRead c8R3.2.1 0x4000 (get_page_table_idx KERNEL_START)) 0x100000)) ∧
    entryAddr (MappingFlags.new_rw_data.setForEntry (entrySetAddr
      (memRead c8R3.2.1 0x4000 (get_page_table_idx KERNEL_START)) 0x100000)) =
      0x100000 ∧
    entryGetFlag (MappingFlags.new_rw_data.setForEntry (entrySetAddr
      (memRead c8R3.2.1 0x4000 (get_page_table_idx KERNEL_START)) 0x100000))
      NO_EXEC_IDX = !MappingFlags.new_rw_data.exec ∧
    entryGetFlag (MappingFlags.new_rw_data.setForEntry (entrySetAddr
      (memRead c8R3.2.1 0x4000 (get_page_table_idx KERNEL_START)) 0x100000))
      WRITE_IDX = MappingFlags.new_rw_data.write ∧
    entryGetFlag (MappingFlags.new_rw_data.setForEntry (entrySetAddr
      (memRead c8R3.2.1 0x4000 (get_page_table_idx KERNEL_START)) 0x100000))
      PRESENT_IDX = MappingFlags.new_rw_data.present :=
  c8_map_page_get_entry_roundtrip [] c8DemoAlloc 0x1000 KERNEL_START 0x100000
    MappingFlags.new_rw_data 0x2000 0x3000 0x4000
    c8R1.2.1 c8R2.2.1 c8R3.2.1 c8R1.2.2 c8R2.2.2 c8R3.2.2
    rfl rfl rfl
    (by decide) (by decide) (by decide) (by decide) (by decide) (by decide)
    (by decide) (by decide)
    (by decide) (by decide) (by decide) (by decide) (by decide) (by decide)
    (by decide)

/-! ## Frames, pages and ranges (bootloader/src/addr.rs)

A `PhysFrame`/`VirtPage` is embedded as its base address; the
`from_base_addr` alignment assertion and the `PhysAddr`/`VirtAddr`
constructor checks become hypotheses of the theorems (the concrete inputs
used all satisfy them).  `from_containing_addr` aligns down. -/

def pageContaining (addr : Nat) : Nat := align_down addr PAGE_SIZE

theorem align_down_page_eq_div (a : Nat) (ha : a < U64_MOD) :
    align_down a PAGE_SIZE = a / PAGE_SIZE * PAGE_SIZE := by
  have hdp : a / PAGE_SIZE * PAGE_SIZE = (a >>> 12) <<< 12 := by
    rw [Nat.shiftRight_eq_div_pow, Nat.shiftLeft_eq]
    norm_num [PAGE_SIZE]
  rw [hdp]
  apply Nat.eq_of_testBit_eq
  intro j
  rw [testBit_align_down_page, Nat.testBit_shiftLeft, Nat.testBit_shiftRight]
  by_cases h12 : 12 ≤ j
  · by_cases h64 : j < 64
    · have hc : 12 ≤ j ∧ j < 64 := by omega
      have hj : 12 + (j - 12) = j := by omega
      simp [h12, hc, hj]
    · have hc : ¬ (12 ≤ j ∧ j < 64) := by omega
      have hz : a.testBit (12 + (j - 12)) = false := by
        apply testBit_of_ge a _ 64 ha
        omega
      have hz2 : a.testBit j = false := testBit_of_ge a j 64 ha (by omega)
      simp [h12, hc, hz, hz2]
  · have hc : ¬ (12 ≤ j ∧ j < 64) := by omega
    simp [h12, hc]

theorem pageContaining_eq_div (a : Nat) (ha : a < U64_MOD) :
    pageContaining a = a / PAGE_SIZE * PAGE_SIZE :=
  align_down_page_eq_div a ha

/-- `PageRange` (bootloader/src/addr.rs): inclusive lower bound `start`,
exclusive upper bound `stop` (named `end` in the source), both page base
addresses. -/
structure PageRange where
  start : Nat
  stop : Nat
deriving DecidableEq, Repr

def PageRange.first (r : PageRange) : Nat := r.start

/-- `PageRange::last` is `end.decrement(1)`: the base of the page one page
below the exclusive bound. -/
def PageRange.last (r : PageRange) : Nat := r.stop - PAGE_SIZE

def PageRange.len (r : PageRange) : Nat := (r.stop - r.start) / PAGE_SIZE

def PageRange.containsPage (r : PageRange) (p : Nat) : Bool :=
  decide (r.start ≤ p) && decide (p < r.stop)

/-- The pages yielded by `PageRangeIter`: `start`, `start + PAGE_SIZE`, …
while still below `stop`. -/
def PageRange.pageList (r : PageRange) : List Nat :=
  (List.range ((r.stop - r.start + PAGE_SIZE - 1) / PAGE_SIZE)).map
    (fun k => r.start + k * PAGE_SIZE)

/-- `Page::range_inclusive`: `[start, end.next())`. -/
def rangeInclusive (start endPage : Nat) : PageRange := ⟨start, endPage + PAGE_SIZE⟩

def rangeExclusive (start endPage : Nat) : PageRange := ⟨start, endPage⟩

def rangeLength (start n : Nat) : PageRange := ⟨start, start + n * PAGE_SIZE⟩

/-- `Page::range_inclusive_u64`: both bounds through `from_containing`. -/
def rangeInclusiveU64 (start endAddr : Nat) : PageRange :=
  rangeInclusive (pageContaining start) (pageContaining endAddr)

/-- `FrameAllocator::alloc_frame_range`: `len` successive `alloc_frame`
calls; the returned range is `range_length(start, len)` (the closing
source assertion `next_frame == range.last().next()` holds by
construction). -/
def allocFrameRangeAux : Nat → FrameAllocator → Option FrameAllocator
  | 0, a => some a
  | n + 1, a =>
    match allocFrame a with
    | none => none
    | some (_, a2) => allocFrameRangeAux n a2

def allocFrameRange (a : FrameAllocator) (len : Nat) :
    Option (PageRange × FrameAllocator) :=
  (allocFrameRangeAux len a).map
    (fun a2 => (rangeLength a.next_frame len, a2))

/-! ## ELF segment loading (bootloader/src/loader.rs, `Loader::map_load_segment`)

The embedding follows the source statement by statement.  Page-table
installation (`map_page_range`, `map_page`) is modelled in the mappings
section above; here we keep its only observable precondition — the
equal-length assertion — and record the segment's physical-memory byte
effects (`write_bytes` of each zeroed frame, `copy_nonoverlapping` of the
straddling partial page) as a trace of events.  `none` covers the typed
errors (`ImproperAlignment`, `InvalidKernelSegmentAddress`) as well as the
panics of the equal-length assertion, the exhausted boot allocator and the
`copy_len < PAGE_SIZE` assertion. -/

inductive MemEvent where
  | zeroPage (base : Nat)
  | copyBytes (src dst len : Nat)
deriving DecidableEq, Repr

structure LoadSegTrace where
  file_frames : PageRange
  file_pages : PageRange
  zeroed_pages : PageRange
  zeroed_frames : PageRange
  events : List MemEvent
  alloc : FrameAllocator
deriving DecidableEq, Repr

def loadFileFrames (kernel_phys_offset offset file_size : Nat) : PageRange :=
  rangeInclusiveU64 (kernel_phys_offset + offset)
    (kernel_phys_offset + offset + file_size)

def loadFilePages (virtual_addr file_size : Nat) : PageRange :=
  rangeInclusiveU64 virtual_addr (virtual_addr + file_size - 1)

def loadZeroedPages (virtual_addr file_size mem_size : Nat) : PageRange :=
  rangeInclusiveU64 (virtual_addr + file_size) (virtual_addr + mem_size - 1)

def mapLoadSegment (kernel_phys_offset offset file_size mem_size virtual_addr
    align : Nat) (a : FrameAllocator) : Option LoadSegTrace :=
  if align ≠ PAGE_SIZE then none
  else
    let section_phys_start := kernel_phys_offset + offset
    let file_frames := loadFileFrames kernel_phys_offset offset file_size
    let file_pages := loadFilePages virtual_addr file_size
    if ¬ KERNEL_START ≤ file_pages.first then none
    else if file_frames.len ≠ file_pages.len then none
    else
      let zeroed_pages := loadZeroedPages virtual_addr file_size mem_size
      if zeroed_pages.len ≠ 0 then
        match allocFrameRange a zeroed_pages.len with
        | none => none
        | some (zeroed_frames, a2) =>
          let zeroEvents := zeroed_frames.pageList.map MemEvent.zeroPage
          if file_pages.last == zeroed_pages.first then
            let src_frame := file_frames.last
            let dst_frame := zeroed_frames.first
            let src_addr := max src_frame section_phys_start
            let copy_offset_from_base := src_addr - src_frame
            let dst_addr := dst_frame + copy_offset_from_base
            let file_data_end := section_phys_start + file_size
            let copy_len := file_data_end - src_addr
            if copy_len < PAGE_SIZE then
              some ⟨file_frames, file_pages, zeroed_pages, zeroed_frames,
                zeroEvents ++ [MemEvent.copyBytes src_addr dst_addr copy_len],
                a2⟩
            else none
          else
            some ⟨file_frames, file_pages, zeroed_pages, zeroed_frames,
              zeroEvents, a2⟩
      else
        some ⟨file_frames, file_pages, zeroed_pages, ⟨0, 0⟩, [], a⟩

/-- Byte-addressed physical memory and the interpretation of the trace:
`write_bytes(frame, 0, PAGE_SIZE)` zeroes a page, `copy_nonoverlapping`
copies `len` bytes reading the current memory. -/
def Mem8 : Type := Nat → Nat

def applyMemEvent (mem : Mem8) (ev : MemEvent) : Mem8 :=
  match ev with
  | .zeroPage b => fun x => if b ≤ x ∧ x < b + PAGE_SIZE then 0 else mem x
  | .copyBytes src dst len =>
      fun x => if dst ≤ x ∧ x < dst + len then mem (src + (x - dst)) else mem x

def applyMemEvents (mem : Mem8) (evs : List MemEvent) : Mem8 :=
  evs.foldl applyMemEvent mem

theorem applyMemEvents_append_one (mem : Mem8) (evs : List MemEvent)
    (e : MemEvent) :
    applyMemEvents mem (evs ++ [e]) = applyMemEvent (applyMemEvents mem evs) e := by
  unfold applyMemEvents
  rw [List.foldl_append]
  rfl

theorem applyZeroEvents (mem : Mem8) (bases : List Nat) (x : Nat) :
    applyMemEvents mem (bases.map MemEvent.zeroPage) x =
      if ∃ b ∈ bases, b ≤ x ∧ x < b + PAGE_SIZE then 0 else mem x := by
  induction bases generalizing mem with
  | nil => simp [applyMemEvents]
  | cons b bs ih =>
    rw [List.map_cons]
    have hstep : applyMemEvents mem
        (MemEvent.zeroPage b :: bs.map MemEvent.zeroPage) =
        applyMemEvents (applyMemEvent mem (MemEvent.zeroPage b))
          (bs.map MemEvent.zeroPage) := rfl
    rw [hstep, ih]
    by_cases hex : ∃ c ∈ bs, c ≤ x ∧ x < c + PAGE_SIZE
    · have hex2 : ∃ c ∈ b :: bs, c ≤ x ∧ x < c + PAGE_SIZE := by
        obtain ⟨c, hc, hcx⟩ := hex
        exact ⟨c, List.mem_cons_of_mem b hc, hcx⟩
      rw [if_pos hex, if_pos hex2]
    · rw [if_neg hex]
      show (if b ≤ x ∧ x < b + PAGE_SIZE then 0 else mem x) =
        if ∃ c ∈ b :: bs, c ≤ x ∧ x < c + PAGE_SIZE then 0 else mem x
      by_cases hx : b ≤ x ∧ x < b + PAGE_SIZE
      · have hex2 : ∃ c ∈ b :: bs, c ≤ x ∧ x < c + PAGE_SIZE :=
          ⟨b, List.mem_cons_self b bs, hx⟩
        rw [if_pos hx, if_pos hex2]
      · have hex2 : ¬ ∃ c ∈ b :: bs, c ≤ x ∧ x < c + PAGE_SIZE := by
          rintro ⟨c, hc, hcx⟩
          rcases List.mem_cons.mp hc with hcb | hcbs
          · exact hx (hcb ▸ hcx)
          · exact hex ⟨c, hcbs, hcx⟩
        rw [if_neg hx, if_neg hex2]

theorem mem_pageList_rangeLength (start n b : Nat) :
    b ∈ (rangeLength start n).pageList ↔ ∃ k, k < n ∧ b = start + k * PAGE_SIZE := by
  unfold rangeLength PageRange.pageList
  have hc : (start + n * PAGE_SIZE - start + PAGE_SIZE - 1) / PAGE_SIZE = n := by
    have h1 : start + n * PAGE_SIZE - start + PAGE_SIZE - 1 =
        PAGE_SIZE * n + (PAGE_SIZE - 1) := by
      have : (0 : Nat) < PAGE_SIZE := by decide
      have hmc : n * PAGE_SIZE = PAGE_SIZE * n := Nat.mul_comm n PAGE_SIZE
      omega
    rw [h1, Nat.mul_add_div (by decide : (0 : Nat) < PAGE_SIZE)]
    have : (PAGE_SIZE - 1) / PAGE_SIZE = 0 := Nat.div_eq_of_lt (by decide)
    omega
  rw [hc]
  constructor
  · intro hb
    obtain ⟨k, hk, hkb⟩ := List.mem_map.mp hb
    exact ⟨k, List.mem_range.mp hk, hkb.symm⟩
  · rintro ⟨k, hk, hkb⟩
    exact List.mem_map.mpr ⟨k, List.mem_range.mpr hk, hkb.symm⟩

theorem allocFrameRangeAux_some (n : Nat) :
    ∀ a : FrameAllocator, a.next_frame + n * PAGE_SIZE ≤ a.alloc_end →
      allocFrameRangeAux n a =
        some ⟨a.alloc_start, a.alloc_end, a.next_frame + n * PAGE_SIZE⟩ := by
  induction n with
  | zero =>
    intro a _
    unfold allocFrameRangeAux
    simp
  | succ k ih =>
    intro a hcap
    have hP : (0 : Nat) < PAGE_SIZE := by decide
    have hd : (k + 1) * PAGE_SIZE = k * PAGE_SIZE + PAGE_SIZE := by ring
    rw [hd] at hcap
    have hlt : ¬ a.alloc_end ≤ a.next_frame := by omega
    have hAF : allocFrame a = some (a.next_frame,
        ⟨a.alloc_start, a.alloc_end, a.next_frame + PAGE_SIZE⟩) := by
      unfold allocFrame
      rw [if_neg hlt]
    unfold allocFrameRangeAux
    simp only [hAF]
    have hstep := ih ⟨a.alloc_start, a.alloc_end, a.next_frame + PAGE_SIZE⟩
      (by show a.next_frame + PAGE_SIZE + k * PAGE_SIZE ≤ a.alloc_end; omega)
    rw [hstep]
    have heq : a.next_frame + PAGE_SIZE + k * PAGE_SIZE =
        a.next_frame + (k + 1) * PAGE_SIZE := by
      rw [hd]
      omega
    rw [heq]

theorem allocFrameRange_some (a : FrameAllocator) (n : Nat)
    (hcap : a.next_frame + n * PAGE_SIZE ≤ a.alloc_end) :
    allocFrameRange a n = some (rangeLength a.next_frame n,
      ⟨a.alloc_start, a.alloc_end, a.next_frame + n * PAGE_SIZE⟩) := by
  unfold allocFrameRange
  rw [allocFrameRangeAux_some n a hcap]
  rfl

theorem rangeLength_first (s n : Nat) : (rangeLength s n).first = s := rfl

/-! ### Claim C1

Expected values of the straddle copy, read off the source: the copy source
is `max(last file frame base, section_phys_start)`, the length is
`file_data_end - src_addr`, and the destination is the first zero-range
frame at the same in-frame offset. -/

def c1SrcAddr (kernel_phys_offset offset file_size : Nat) : Nat :=
  max (loadFileFrames kernel_phys_offset offset file_size).last
    (kernel_phys_offset + offset)

def c1CopyLen (kernel_phys_offset offset file_size : Nat) : Nat :=
  kernel_phys_offset + offset + file_size -
    c1SrcAddr kernel_phys_offset offset file_size

def c1CopyOffset (kernel_phys_offset offset file_size : Nat) : Nat :=
  c1SrcAddr kernel_phys_offset offset file_size -
    (loadFileFrames kernel_phys_offset offset file_size).last

def c1ZeroFrames (virtual_addr file_size mem_size : Nat)
    (a : FrameAllocator) : PageRange :=
  rangeLength a.next_frame (loadZeroedPages virtual_addr file_size mem_size).len

def c1Events (kernel_phys_offset offset file_size mem_size virtual_addr : Nat)
    (a : FrameAllocator) : List MemEvent :=
  ((c1ZeroFrames virtual_addr file_size mem_size a).pageList.map
    MemEvent.zeroPage) ++
  [MemEvent.copyBytes (c1SrcAddr kernel_phys_offset offset file_size)
    (a.next_frame + c1CopyOffset kernel_phys_offset offset file_size)
    (c1CopyLen kernel_phys_offset offset file_size)]

/-- Claim C1 (amended): for every accepted `PT_LOAD` segment whose last file
page equals its first zero page, `map_load_segment` zeroes one fresh frame
per zero-range page and then copies into the freshly allocated first
zero-range frame, at the in-frame offset of `max(segment physical start,
last file frame base)` — which is the segment start's in-frame offset only
when the segment begins in the last file frame, and offset zero otherwise —
copying `file_data_end - max(...)` bytes (strictly less than one page, and
equal to `file_size mod PAGE_SIZE` only when the copy offset is zero or the
segment is single-frame); the copy stays inside the first zero-range frame,
its bytes afterwards equal the source file bytes, the rest of the first
zero-range frame is zero, and every subsequent zero-range frame is entirely
zero. -/
theorem c1_boundary_fixup (kpo offset fs ms v : Nat) (a : FrameAllocator)
    (hval : KERNEL_START ≤ (loadFilePages v fs).first)
    (hlen : (loadFileFrames kpo offset fs).len = (loadFilePages v fs).len)
    (hz : (loadZeroedPages v fs ms).len ≠ 0)
    (hstr : (loadFilePages v fs).last = (loadZeroedPages v fs ms).first)
    (hcap : a.next_frame + (loadZeroedPages v fs ms).len * PAGE_SIZE ≤
      a.alloc_end)
    (hsz : kpo + offset + fs < 2 ^ 52)
    (hdisj : pageContaining (kpo + offset + fs) + PAGE_SIZE ≤ a.next_frame ∨
      a.next_frame + (loadZeroedPages v fs ms).len * PAGE_SIZE ≤
        pageContaining (kpo + offset + fs)) :
    mapLoadSegment kpo offset fs ms v PAGE_SIZE a =
      some ⟨loadFileFrames kpo offset fs, loadFilePages v fs,
        loadZeroedPages v fs ms, c1ZeroFrames v fs ms a,
        c1Events kpo offset fs ms v a,
        ⟨a.alloc_start, a.alloc_end,
          a.next_frame + (loadZeroedPages v fs ms).len * PAGE_SIZE⟩⟩ ∧
    c1CopyLen kpo offset fs < PAGE_SIZE ∧
    c1CopyOffset kpo offset fs + c1CopyLen kpo offset fs ≤ PAGE_SIZE ∧
    (∀ (mem : Mem8) (x : Nat),
      a.next_frame + c1CopyOffset kpo offset fs ≤ x →
      x < a.next_frame + c1CopyOffset kpo offset fs + c1CopyLen kpo offset fs →
      applyMemEvents mem (c1Events kpo offset fs ms v a) x =
        mem (c1SrcAddr kpo offset fs +
          (x - (a.next_frame + c1CopyOffset kpo offset fs)))) ∧
    (∀ (mem : Mem8) (x : Nat),
      a.next_frame ≤ x → x < a.next_frame + PAGE_SIZE →
      ¬ (a.next_frame + c1CopyOffset kpo offset fs ≤ x ∧
        x < a.next_frame + c1CopyOffset kpo offset fs + c1CopyLen kpo offset fs) →
      applyMemEvents mem (c1Events kpo offset fs ms v a) x = 0) ∧
    (∀ (mem : Mem8) (x : Nat),
      a.next_frame + PAGE_SIZE ≤ x →
      x < a.next_frame + (loadZeroedPages v fs ms).len * PAGE_SIZE →
      applyMemEvents mem (c1Events kpo offset fs ms v a) x = 0) := by
  have hP : (0 : Nat) < PAGE_SIZE := by decide
  have hps : PAGE_SIZE = 4096 := rfl
  have hu64 : kpo + offset + fs < U64_MOD := by
    unfold U64_MOD
    calc kpo + offset + fs < 2 ^ 52 := hsz
    _ < 2 ^ 64 := by norm_num
  have hlast : (loadFileFrames kpo offset fs).last =
      pageContaining (kpo + offset + fs) := by
    show pageContaining (kpo + offset + fs) + PAGE_SIZE - PAGE_SIZE =
      pageContaining (kpo + offset + fs)
    omega
  have hpc1 : pageContaining (kpo + offset + fs) ≤ kpo + offset + fs ∧
      kpo + offset + fs < pageContaining (kpo + offset + fs) + PAGE_SIZE := by
    rw [pageContaining_eq_div _ hu64, hps]
    omega
  have hsrcA_ge : (loadFileFrames kpo offset fs).last ≤ c1SrcAddr kpo offset fs :=
    le_max_left _ _
  have hsrcA_le : c1SrcAddr kpo offset fs ≤ kpo + offset + fs := by
    unfold c1SrcAddr
    rw [hlast]
    exact max_le hpc1.1 (by omega)
  have hclen : c1CopyLen kpo offset fs < PAGE_SIZE := by
    unfold c1CopyLen
    have h1 : kpo + offset + fs - c1SrcAddr kpo offset fs ≤
        kpo + offset + fs - (loadFileFrames kpo offset fs).last :=
      Nat.sub_le_sub_left hsrcA_ge _
    rw [hlast] at h1
    omega
  have hsum : c1CopyOffset kpo offset fs + c1CopyLen kpo offset fs ≤ PAGE_SIZE := by
    unfold c1CopyOffset c1CopyLen
    rw [hlast] at hsrcA_ge ⊢
    omega
  have hbeq : ((loadFilePages v fs).last == (loadZeroedPages v fs ms).first) =
      true := beq_iff_eq.mpr hstr
  have hmap : mapLoadSegment kpo offset fs ms v PAGE_SIZE a =
      some ⟨loadFileFrames kpo offset fs, loadFilePages v fs,
        loadZeroedPages v fs ms, c1ZeroFrames v fs ms a,
        c1Events kpo offset fs ms v a,
        ⟨a.alloc_start, a.alloc_end,
          a.next_frame + (loadZeroedPages v fs ms).len * PAGE_SIZE⟩⟩ := by
    unfold mapLoadSegment
    rw [if_neg (fun hc => hc rfl)]
    rw [if_neg (not_not_intro hval)]
    rw [if_neg (not_not_intro hlen)]
    rw [if_pos hz]
    rw [allocFrameRange_some a _ hcap]
    simp only [hbeq]
    have hclen2 : kpo + offset + fs -
        max (loadFileFrames kpo offset fs).last (kpo + offset) < PAGE_SIZE :=
      hclen
    rw [if_pos hclen2]
    rfl
  refine ⟨hmap, hclen, hsum, ?_, ?_, ?_⟩
  · -- the copied bytes come from the source file bytes
    intro mem x hx1 hx2
    unfold c1Events
    rw [applyMemEvents_append_one]
    show (if a.next_frame + c1CopyOffset kpo offset fs ≤ x ∧
        x < a.next_frame + c1CopyOffset kpo offset fs + c1CopyLen kpo offset fs
      then (applyMemEvents mem ((c1ZeroFrames v fs ms a).pageList.map
          MemEvent.zeroPage)) (c1SrcAddr kpo offset fs +
          (x - (a.next_frame + c1CopyOffset kpo offset fs)))
      else (applyMemEvents mem ((c1ZeroFrames v fs ms a).pageList.map
          MemEvent.zeroPage)) x) = _
    rw [if_pos ⟨hx1, hx2⟩]
    rw [applyZeroEvents]
    rw [if_neg]
    rintro ⟨b, hb, hbx1, hbx2⟩
    unfold c1ZeroFrames at hb
    rw [mem_pageList_rangeLength] at hb
    obtain ⟨k, hk, hkb⟩ := hb
    have hy1 : pageContaining (kpo + offset + fs) ≤
        c1SrcAddr kpo offset fs +
          (x - (a.next_frame + c1CopyOffset kpo offset fs)) := by
      rw [← hlast]
      omega
    have hy2 : c1SrcAddr kpo offset fs +
        (x - (a.next_frame + c1CopyOffset kpo offset fs)) <
        pageContaining (kpo + offset + fs) + PAGE_SIZE := by
      have : c1SrcAddr kpo offset fs + c1CopyLen kpo offset fs =
          kpo + offset + fs := by
        unfold c1CopyLen
        omega
      omega
    rcases hdisj with hd | hd
    · have hbz : a.next_frame ≤ b := by
        subst hkb
        omega
      omega
    · have hbz : b + PAGE_SIZE ≤ a.next_frame +
          (loadZeroedPages v fs ms).len * PAGE_SIZE := by
        subst hkb
        have : (k + 1) * PAGE_SIZE ≤ (loadZeroedPages v fs ms).len * PAGE_SIZE :=
          Nat.mul_le_mul_right _ (by omega)
        have hdistrib : (k + 1) * PAGE_SIZE = k * PAGE_SIZE + PAGE_SIZE := by ring
        omega
      omega
  · -- rest of the first zero frame reads zero
    intro mem x hx1 hx2 hnc
    unfold c1Events
    rw [applyMemEvents_append_one]
    show (if a.next_frame + c1CopyOffset kpo offset fs ≤ x ∧
        x < a.next_frame + c1CopyOffset kpo offset fs + c1CopyLen kpo offset fs
      then (applyMemEvents mem ((c1ZeroFrames v fs ms a).pageList.map
          MemEvent.zeroPage)) (c1SrcAddr kpo offset fs +
          (x - (a.next_frame + c1CopyOffset kpo offset fs)))
      else (applyMemEvents mem ((c1ZeroFrames v fs ms a).pageList.map
          MemEvent.zeroPage)) x) = 0
    rw [if_neg hnc]
    rw [applyZeroEvents]
    have hex : ∃ b ∈ (c1ZeroFrames v fs ms a).pageList,
        b ≤ x ∧ x < b + PAGE_SIZE := by
      refine ⟨a.next_frame, ?_, by omega, by omega⟩
      unfold c1ZeroFrames
      exact (mem_pageList_rangeLength _ _ _).mpr ⟨0, by omega, by simp⟩
    rw [if_pos hex]
  · -- every subsequent zero frame reads zero
    intro mem x hx1 hx2
    unfold c1Events
    rw [applyMemEvents_append_one]
    show (if a.next_frame + c1CopyOffset kpo offset fs ≤ x ∧
        x < a.next_frame + c1CopyOffset kpo offset fs + c1CopyLen kpo offset fs
      then (applyMemEvents mem ((c1ZeroFrames v fs ms a).pageList.map
          MemEvent.zeroPage)) (c1SrcAddr kpo offset fs +
          (x - (a.next_frame + c1CopyOffset kpo offset fs)))
      else (applyMemEvents mem ((c1ZeroFrames v fs ms a).pageList.map
          MemEvent.zeroPage)) x) = 0
    have hno : ¬ (a.next_frame + c1CopyOffset kpo offset fs ≤ x ∧
        x < a.next_frame + c1CopyOffset kpo offset fs +
          c1CopyLen kpo offset fs) := by omega
    rw [if_neg hno]
    rw [applyZeroEvents]
    have hex : ∃ b ∈ (c1ZeroFrames v fs ms a).pageList,
        b ≤ x ∧ x < b + PAGE_SIZE := by
      have h4096 : ∃ k, k < (loadZeroedPages v fs ms).len ∧
          a.next_frame + k * PAGE_SIZE ≤ x ∧
          x < a.next_frame + k * PAGE_SIZE + PAGE_SIZE := by
        have hps2 : PAGE_SIZE = 4096 := rfl
        rw [hps2] at hx1 hx2 ⊢
        refine ⟨(x - a.next_frame) / 4096, by omega, by omega, by omega⟩
      obtain ⟨k, hk, hk1, hk2⟩ := h4096
      refine ⟨a.next_frame + k * PAGE_SIZE, ?_, hk1, hk2⟩
      unfold c1ZeroFrames
      exact (mem_pageList_rangeLength _ _ _).mpr ⟨k, hk, rfl⟩
    rw [if_pos hex]

def c1DemoAlloc : FrameAllocator := ⟨0x20000, 0x40000, 0x20000⟩

/-- Witness for C1 (amended) at a classic straddling segment: page-aligned
physical start `0x1000`, `file_size = 0x1100`, `mem_size = 0x2000`,
`virtual_addr = KERNEL_START`. -/
theorem c1_boundary_fixup_witness :
    mapLoadSegment 0x1000 0 0x1100 0x2000 KERNEL_START PAGE_SIZE c1DemoAlloc =
      some ⟨loadFileFrames 0x1000 0 0x1100, loadFilePages KERNEL_START 0x1100,
        loadZeroedPages KERNEL_START 0x1100 0x2000,
        c1ZeroFrames KERNEL_START 0x1100 0x2000 c1DemoAlloc,
        c1Events 0x1000 0 0x1100 0x2000 KERNEL_START c1DemoAlloc,
        ⟨c1DemoAlloc.alloc_start, c1DemoAlloc.alloc_end,
          c1DemoAlloc.next_frame +
            (loadZeroedPages KERNEL_START 0x1100 0x2000).len * PAGE_SIZE⟩⟩ ∧
    c1CopyLen 0x1000 0 0x1100 < PAGE_SIZE ∧
    c1CopyOffset 0x1000 0 0x1100 + c1CopyLen 0x1000 0 0x1100 ≤ PAGE_SIZE ∧
    (∀ (mem : Mem8) (x : Nat),
      c1DemoAlloc.next_frame + c1CopyOffset 0x1000 0 0x1100 ≤ x →
      x < c1DemoAlloc.next_frame + c1CopyOffset 0x1000 0 0x1100 +
        c1CopyLen 0x1000 0 0x1100 →
      applyMemEvents mem (c1Events 0x1000 0 0x1100 0x2000 KERNEL_START
        c1DemoAlloc) x =
        mem (c1SrcAddr 0x1000 0 0x1100 +
          (x - (c1DemoAlloc.next_frame + c1CopyOffset 0x1000 0 0x1100)))) ∧
    (∀ (mem : Mem8) (x : Nat),
      c1DemoAlloc.next_frame ≤ x → x < c1DemoAlloc.next_frame + PAGE_SIZE →
      ¬ (c1DemoAlloc.next_frame + c1CopyOffset 0x1000 0 0x1100 ≤ x ∧
        x < c1DemoAlloc.next_frame + c1CopyOffset 0x1000 0 0x1100 +
          c1CopyLen 0x1000 0 0x1100) →
      applyMemEvents mem (c1Events 0x1000 0 0x1100 0x2000 KERNEL_START
        c1DemoAlloc) x = 0) ∧
    (∀ (mem : Mem8) (x : Nat),
      c1DemoAlloc.next_frame + PAGE_SIZE ≤ x →
      x < c1DemoAlloc.next_frame +
        (loadZeroedPages KERNEL_START 0x1100 0x2000).len * PAGE_SIZE →
      applyMemEvents mem (c1Events 0x1000 0 0x1100 0x2000 KERNEL_START
        c1DemoAlloc) x = 0) :=
  c1_boundary_fixup 0x1000 0 0x1100 0x2000 KERNEL_START c1DemoAlloc
    (by decide) (by decide) (by decide) (by decide) (by decide) (by decide)
    (by decide)

/-- Counterexample to claim C1 as stated: the segment with
`kernel_blob_phys = 0x1000`, `file_offset = 0x800`, `file_size = 0x1100`,
`mem_size = 0x2000`, `virtual_addr = KERNEL_START + 0x800` is accepted
(last conjuncts) and its last file page equals its first zero page, yet the
copy performed is `0x900` bytes from in-frame offset `0` of the last file
frame — not `file_size mod PAGE_SIZE = 0x100` bytes from the in-frame
offset `0x800` of the segment's physical start `0x1800`, as the claim
says. -/
theorem c1_counterexample_copy_params :
    (mapLoadSegment 0x1000 0x800 0x1100 0x2000 (KERNEL_START + 0x800)
        PAGE_SIZE ⟨0x20000, 0x40000, 0x20000⟩).map (fun t => t.events) =
      some [MemEvent.zeroPage 0x20000, MemEvent.zeroPage 0x21000,
        MemEvent.copyBytes 0x2000 0x20000 0x900] ∧
    ((0x900 : Nat) ≠ 0x1100 % PAGE_SIZE) ∧
    ((0x20000 - 0x20000 : Nat) ≠ (0x1000 + 0x800) % PAGE_SIZE) ∧
    (loadFilePages (KERNEL_START + 0x800) 0x1100).last =
      (loadZeroedPages (KERNEL_START + 0x800) 0x1100 0x2000).first ∧
    KERNEL_START ≤ (loadFilePages (KERNEL_START + 0x800) 0x1100).first :=
  ⟨by decide, by decide, by decide, by decide, by decide⟩

/-! ### Claim C2

`map_load_segment` builds the file frame range with an inclusive upper
bound `section_phys_start + file_size` (no `- 1`), while the file page
range uses `virtual_addr + file_size - 1`.  When the file portion ends
exactly on a page boundary the frame range has one more element than the
page range and the `assert!(frames.len() == pages.len())` in
`Mappings::map_page_range` fires.  Failing input: `kernel_blob_phys =
0x10000`, `file_offset = 0x1000`, `file_size = 0x1000` (one whole page),
`virtual_addr = KERNEL_START`. -/
theorem c2_equal_length_assertion_fails :
    ((0x1000 : Nat) % PAGE_SIZE = KERNEL_START % PAGE_SIZE) ∧
    ((1 : Nat) ≤ 0x1000) ∧
    KERNEL_START ≤ (loadFilePages KERNEL_START 0x1000).first ∧
    (loadFileFrames 0x10000 0x1000 0x1000).len = 2 ∧
    (loadFilePages KERNEL_START 0x1000).len = 1 ∧
    mapLoadSegment 0x10000 0x1000 0x1000 0x1000 KERNEL_START PAGE_SIZE
      ⟨0x20000, 0x40000, 0x20000⟩ = none :=
  ⟨by decide, by decide, by decide, by decide, by decide, by decide⟩

/-! ### Claim C4

`Loader::create_kernel_stack` (bootloader/src/loader.rs): a guard page is
mapped (zero frame, `MappingFlags::new_guard`, i.e. non-present) at the
page after the one containing `kernel_end`, then `KERNEL_STACK_PAGES`
read-write stack pages, and the returned stack top is
`stack_pages.last().base_u64() - 16` — the *base* of the highest stack
page minus 16, not its top.  `Loader::load_kernel` computes `kernel_end`
as the maximum of `virtual_addr + mem_size` over the loaded segments. -/

def KERNEL_STACK_PAGES : Nat := 3

structure StackTrace where
  guard_page : Nat
  guard_flags : MappingFlags
  stack_pages : PageRange
  stack_flags : MappingFlags
  stack_top : Nat
deriving DecidableEq, Repr

def createKernelStack (kernel_end : Nat) : StackTrace :=
  let guard_page := pageContaining kernel_end + PAGE_SIZE
  let stack_start := guard_page + PAGE_SIZE
  let stack_pages := rangeLength stack_start KERNEL_STACK_PAGES
  { guard_page := guard_page
    guard_flags := MappingFlags.new_guard
    stack_pages := stack_pages
    stack_flags := MappingFlags.new_rw_data
    stack_top := stack_pages.last - 16 }

/-- `kernel_end` as computed by `Loader::load_kernel`: the running maximum
of `virtual_addr + mem_size` over the `PT_LOAD` segments, starting at 0. -/
def kernelEndOf (segs : List (Nat × Nat)) : Nat :=
  segs.foldl (fun acc p => max acc (p.1 + p.2)) 0

/-- Counterexample to claim C4 as stated: at `kernel_end = KERNEL_START`
(page-aligned), the returned stack top is `KERNEL_START + 4·PAGE_SIZE − 16`
— the base of the highest stack page minus 16 — while the top of the
highest stack page minus 16 is `KERNEL_START + 5·PAGE_SIZE − 16`. -/
theorem c4_counterexample_stack_top :
    (createKernelStack KERNEL_START).stack_top =
      KERNEL_START + 4 * PAGE_SIZE - 16 ∧
    (createKernelStack KERNEL_START).stack_pages.last + PAGE_SIZE - 16 =
      KERNEL_START + 5 * PAGE_SIZE - 16 ∧
    (createKernelStack KERNEL_START).stack_top ≠
      (createKernelStack KERNEL_START).stack_pages.last + PAGE_SIZE - 16 :=
  ⟨by decide, by decide, by decide⟩

/-- Claim C4 (amended): after loading all segments, `create_kernel_stack`
places a three-page read-write stack region two pages after the page
containing `max(virtual_addr + mem_size)`, preceded by a one-page
non-present guard page, and the returned stack top is the *base* address of
the highest stack page minus 16 bytes (equivalently, the top of the middle
stack page minus 16), not the top of the highest stack page minus 16. -/
theorem c4_stack_layout (segs : List (Nat × Nat)) :
    (createKernelStack (kernelEndOf segs)).guard_page =
      pageContaining (kernelEndOf segs) + PAGE_SIZE ∧
    (createKernelStack (kernelEndOf segs)).guard_flags.present = false ∧
    (createKernelStack (kernelEndOf segs)).stack_pages.first =
      pageContaining (kernelEndOf segs) + 2 * PAGE_SIZE ∧
    (createKernelStack (kernelEndOf segs)).stack_pages.len = 3 ∧
    (createKernelStack (kernelEndOf segs)).stack_flags.write = true ∧
    (createKernelStack (kernelEndOf segs)).stack_flags.present = true ∧
    (createKernelStack (kernelEndOf segs)).stack_flags.exec = false ∧
    (createKernelStack (kernelEndOf segs)).stack_top =
      (createKernelStack (kernelEndOf segs)).stack_pages.last - 16 ∧
    (createKernelStack (kernelEndOf segs)).stack_top =
      pageContaining (kernelEndOf segs) + 4 * PAGE_SIZE - 16 := by
  have hps : PAGE_SIZE = 4096 := rfl
  refine ⟨?_, rfl, ?_, ?_, rfl, rfl, rfl, rfl, ?_⟩ <;>
    (simp only [createKernelStack, rangeLength, KERNEL_STACK_PAGES,
      PageRange.first, PageRange.last, PageRange.len, hps]
     try omega)

/-! ## Memory regions and the boot-info builder (common/src/lib.rs,
bootloader/src/boot_info.rs)

`MemRegion` is `{start, pages, ty}`.  The helpers `MemRegion::as_range`,
`MemRegion::from_range`, `PageRange::end()` and `PageRange::contains_range`
live in `common/src/addr.rs`, which is not part of the snapshot. -/

inductive RegionType where
  | Usable
  | Allocated
  | Bootloader
deriving DecidableEq, Repr

structure MemRegion where
  start : Nat
  pages : Nat
  ty : RegionType
deriving DecidableEq, Repr

/-- Modelled from the spec: a memory region is `{start physical address,
page count, type}` (§3.3), so `MemRegion::as_range` is the frame range of
`pages` frames from `start`. -/
def memRegionAsRange (m : MemRegion) : PageRange := rangeLength m.start m.pages

/-- Modelled from the spec: the converse constructor `MemRegion::from_range`. -/
def memRegionFromRange (r : PageRange) (ty : RegionType) : MemRegion :=
  ⟨r.first, r.len, ty⟩

/-- Modelled from the spec: ranges support "containment" (§3.1);
`a.contains_range(b)` holds when `b`'s half-open interval lies inside
`a`'s. -/
def containsRange (a b : PageRange) : Bool :=
  decide (a.start ≤ b.start) && decide (b.stop ≤ a.stop)

/-- `FrameAllocator::reserved_range` (bootloader/src/frame.rs). -/
def reservedRange (a : FrameAllocator) : PageRange :=
  rangeExclusive a.alloc_start a.alloc_end

/-- `FrameAllocator::used_range` (bootloader/src/frame.rs):
`range_length(alloc_start, frames_allocated)` where `frames_allocated`
is `(next_frame - alloc_start) / PAGE_SIZE`. -/
def usedRange (a : FrameAllocator) : PageRange :=
  rangeLength a.alloc_start ((a.next_frame - a.alloc_start) / PAGE_SIZE)

/-- `MemRegionIter` (bootloader/src/boot_info.rs): coalesce adjacent
descriptors of the same type whose ranges are contiguous. -/
def coalesceGo : MemRegion → List MemRegion → List MemRegion
  | r, [] => [r]
  | r, d :: rest =>
    if d.ty = r.ty ∧ (memRegionAsRange r).stop = (memRegionAsRange d).first then
      coalesceGo ⟨r.start, r.pages + d.pages, r.ty⟩ rest
    else
      r :: coalesceGo d rest

def coalesce : List MemRegion → List MemRegion
  | [] => []
  | r :: rest => coalesceGo r rest

/-- The splitting loop of `create_mem_regions`
(bootloader/src/boot_info.rs): a region containing the allocator's
reserved range must be `Usable` (the `assert!` is `none`), and is replaced
by a `Usable` prefix `[region start, reserved start)` if non-empty, a
`Bootloader` region covering exactly `used_range`, and a suffix
`range_inclusive(reserved.end(), region_range.last())` — i.e.
`[reserved end, region end)` — if non-empty. -/
def splitRegions : List MemRegion → PageRange → PageRange → Option (List MemRegion)
  | [], _, _ => some []
  | region :: rest, reserved, used =>
    match splitRegions rest reserved used with
    | none => none
    | some tail =>
      let region_range := memRegionAsRange region
      if containsRange region_range reserved then
        if region.ty ≠ RegionType.Usable then none
        else
          let pre_range := rangeExclusive region_range.first reserved.first
          let post_range := rangeInclusive reserved.stop region_range.last
          some ((if pre_range.len > 0 then
              [memRegionFromRange pre_range region.ty] else []) ++
            [memRegionFromRange used RegionType.Bootloader] ++
            (if post_range.len > 0 then
              [memRegionFromRange post_range region.ty] else []) ++ tail)
      else some (region :: tail)

def createMemRegions (memory_map : List MemRegion)
    (frame_allocator : FrameAllocator) : Option (List MemRegion) :=
  splitRegions (coalesce memory_map) (reservedRange frame_allocator)
    (usedRange frame_allocator)

/-! ### Claim C3

Failing input: one coalesced `Usable` region `[0, 0x100000)`, allocator
with `reserved = [0x1000, 0x3000)` and `used = [0x1000, 0x2000)`.  The
emitted suffix starts at the *reserved* end `0x3000`, so the unused
reservation tail `[0x2000, 0x3000)` — frame `0x2000` — is in no emitted
region at all instead of being returned as Usable. -/
theorem c3_unused_tail_not_returned :
    createMemRegions [⟨0, 0x100, RegionType.Usable⟩] ⟨0x1000, 0x3000, 0x2000⟩ =
      some [⟨0, 1, RegionType.Usable⟩, ⟨0x1000, 1, RegionType.Bootloader⟩,
        ⟨0x3000, 0xFD, RegionType.Usable⟩] ∧
    usedRange ⟨0x1000, 0x3000, 0x2000⟩ = rangeLength 0x1000 1 ∧
    reservedRange ⟨0x1000, 0x3000, 0x2000⟩ = rangeExclusive 0x1000 0x3000 ∧
    (memRegionAsRange ⟨0, 0x100, RegionType.Usable⟩).containsPage 0x2000 = true ∧
    (∀ r ∈ [(⟨0, 1, RegionType.Usable⟩ : MemRegion),
        ⟨0x1000, 1, RegionType.Bootloader⟩, ⟨0x3000, 0xFD, RegionType.Usable⟩],
      (memRegionAsRange r).containsPage 0x2000 = false) :=
  ⟨by decide, by decide, by decide, by decide, by decide⟩

/-! ## IDT layout (kernel/src/arch/interrupts/idt.rs)

The `Idt` struct and its constants, embedded as the list of entry kinds in
declaration order. -/

inductive IdtEntryKind where
  | noErrorCode
  | withErrorCode
deriving DecidableEq, Repr

def IDT_NUM_ENTRIES : Nat := 255

def IDT_LAST_EXCEPTION : Nat := 20

def IDT_USER_DEFINED_START : Nat := 32

def IDT_NUM_RESERVED_EXCEPTIONS : Nat :=
  IDT_USER_DEFINED_START - IDT_LAST_EXCEPTION

def IDT_NUM_USER_DEFINED : Nat := IDT_NUM_ENTRIES - IDT_USER_DEFINED_START

def IDT_ENTRY_LENGTH_BYTES : Nat := 16

/-- The 20 named exception fields of `Idt`, in order (`IdtEntryWithErrorCode`
for double_fault, invalid_tss, segment_not_present, stack_fault,
general_protection, page_fault, alignment_check). -/
def idtExceptionEntries : List IdtEntryKind :=
  [.noErrorCode, .noErrorCode, .noErrorCode, .noErrorCode, .noErrorCode,
   .noErrorCode, .noErrorCode, .noErrorCode, .withErrorCode, .noErrorCode,
   .withErrorCode, .withErrorCode, .withErrorCode, .withErrorCode,
   .withErrorCode, .noErrorCode, .withErrorCode, .noErrorCode, .noErrorCode,
   .noErrorCode]

def idtLayout : List IdtEntryKind :=
  idtExceptionEntries ++
  List.replicate IDT_NUM_RESERVED_EXCEPTIONS IdtEntryKind.noErrorCode ++
  List.replicate IDT_NUM_USER_DEFINED IdtEntryKind.noErrorCode

/-- The limit loaded by `Idt::activate`:
`NUM_ENTRIES * IdtEntryBase::LENGTH_BYTES - 1`. -/
def idtActivateLimit : Nat := IDT_NUM_ENTRIES * IDT_ENTRY_LENGTH_BYTES - 1

/-- `add_user_defined_handler`: asserts `index ≥ USER_DEFINED_START`
(`none` on failure) and indexes `user_defined` — an array of
`NUM_USER_DEFINED` entries, so any index beyond it panics (`none`). -/
def addUserDefinedHandler (index : Nat) : Option Nat :=
  if index < IDT_USER_DEFINED_START then none
  else
    let user_defined_index := index - IDT_USER_DEFINED_START
    if user_defined_index < IDT_NUM_USER_DEFINED then some user_defined_index
    else none

/-- Claim C6 evaluation: the table has 255 entries, not 256; 223
user-defined entries (vectors 32..254), not 224; the activate limit covers
255 sixteen-byte entries, not 256; registering vector 255 panics with an
out-of-bounds index while vector 254 is the last that succeeds.  The
20-entry exception prefix with 7 error-code handlers matches the claim. -/
theorem c6_idt_has_255_entries :
    idtLayout.length = 255 ∧ idtLayout.length ≠ 256 ∧
    IDT_NUM_USER_DEFINED = 223 ∧ IDT_NUM_USER_DEFINED ≠ 224 ∧
    idtExceptionEntries.length = 20 ∧
    (idtExceptionEntries.filter (· == IdtEntryKind.withErrorCode)).length = 7 ∧
    IDT_USER_DEFINED_START = 32 ∧
    idtActivateLimit = 255 * 16 - 1 ∧ idtActivateLimit ≠ 256 * 16 - 1 ∧
    addUserDefinedHandler 254 = some 222 ∧
    addUserDefinedHandler 255 = none :=
  ⟨by decide, by decide, by decide, by decide, by decide, by decide,
   by decide, by decide, by decide, by decide, by decide⟩

/-! ## Early kernel heap (kernel/src/kmem/ll_heap/mod.rs)

Rust layout facts used as constants: `AllocHeader {start: usize, end:
usize}` has size 16 and alignment 8; `FreeHeader {prev: Option<NonNull>,
next: Option<NonNull>, size: usize}` has size 24 (the null-pointer
optimization is guaranteed for `Option<NonNull<T>>`) and alignment 8.  The
source sets `FREE_HEADER_SIZE` to `align_of::<FreeHeader>()` — 8 — even
though the adjacent `ALLOC_HEADER_SIZE` uses `size_of` and the name and the
"not enough space for another free header" comment ask for the size, 24. -/

def ALLOC_HEADER_ALIGN : Nat := 8

def ALLOC_HEADER_SIZE : Nat := 16

def FREE_HEADER_ALIGN : Nat := 8

/-- As in the source: `align_of::<FreeHeader>()`. -/
def FREE_HEADER_SIZE : Nat := 8

/-- What `size_of::<FreeHeader>()` is: 8 + 8 + 8 bytes. -/
def FREE_HEADER_SIZE_OF_RUST : Nat := 24

structure AllocResult where
  header_start : Nat
  alloc_start : Nat
  used_start : Nat
  used_end : Nat
  remaining : Option (Nat × Nat)
deriving DecidableEq, Repr

inductive AllocOutcome where
  | panic
  | fail
  | ok (r : AllocResult)
deriving DecidableEq, Repr

/-- `KernelHeap::try_alloc_from_free_block`: `panic` models the
`assert!(is_aligned(header_start, ...))`, `fail` the `None` return when the
allocation exceeds the block. -/
def tryAllocFromFreeBlock (free_start free_end size align : Nat) : AllocOutcome :=
  let alloc_start := align_up (free_start + ALLOC_HEADER_SIZE) align
  let alloc_end := align_up (alloc_start + size) FREE_HEADER_ALIGN
  let header_start := alloc_start - ALLOC_HEADER_SIZE
  if ¬ is_aligned header_start ALLOC_HEADER_ALIGN then .panic
  else
    let remaining_start := alloc_end
    let remaining_end := free_end
    if remaining_end < remaining_start then .fail
    else
      let remaining :=
        if remaining_end - remaining_start < FREE_HEADER_SIZE then none
        else some (remaining_start, remaining_end)
      let used_start := free_start
      let used_end :=
        match remaining with
        | some _ => alloc_end
        | none => free_end
      .ok ⟨header_start, alloc_start, used_start, used_end, remaining⟩

structure FreeHeaderM where
  prev : Option Nat
  next : Option Nat
  size : Nat
deriving DecidableEq, Repr

inductive HeapAllocOutcome where
  | panic
  | null
  | ok (ptr : Nat) (newFree : Option (Nat × FreeHeaderM))
      (allocHeader : Nat × Nat × Nat)
deriving DecidableEq, Repr

/-- `KernelHeap::alloc` acting on the single free block at `head_offset`
with header `head` (the list head; the source only ever has one block:
`free` is a no-op and the TODO first-fit loop looks only at the head).
`null` is the `null_mut()` return that leaves the free list untouched; on a
split, a `FreeHeader {prev: None, next: None, size: remaining}` is written
at `remaining_start` (after the `write_free_header` asserts, whose failure
is `panic`) and becomes the new head. -/
def heapAlloc (pages : PageRange) (head_offset : Nat) (head : FreeHeaderM)
    (size align : Nat) : HeapAllocOutcome :=
  match tryAllocFromFreeBlock head_offset (head_offset + head.size) size align with
  | .panic => .panic
  | .fail => .null
  | .ok r =>
    match r.remaining with
    | some (remaining_start, remaining_end) =>
      if is_aligned remaining_start FREE_HEADER_ALIGN = true ∧
          pages.first ≤ remaining_start ∧
          remaining_start + (remaining_end - remaining_start) ≤ pages.stop then
        .ok r.alloc_start
          (some (remaining_start, ⟨none, none, remaining_end - remaining_start⟩))
          (r.header_start, r.used_start, r.used_end)
      else .panic
    | none =>
      .ok r.alloc_start none (r.header_start, r.used_start, r.used_end)

/-! ### Claim C7

Failing input: a one-page heap `[0x10000, 0x11000)` holding a single free
block of size 4096, allocation `size = 4064, align = 8`.  Then `alloc_end =
0x10FF0` and the tail is 16 bytes — smaller than the 24-byte `FreeHeader` —
yet the code compares against `FREE_HEADER_SIZE = align_of = 8`, decides to
split, and writes a 24-byte `FreeHeader` into the 16-byte tail, overrunning
the heap page (`0x10FF0 + 24 > 0x11000`); the claim (and the constant's own
name and comment) require the entire block to be consumed. -/
theorem c7_free_header_size_is_align :
    FREE_HEADER_SIZE = 8 ∧ FREE_HEADER_SIZE_OF_RUST = 24 ∧
    FREE_HEADER_SIZE ≠ FREE_HEADER_SIZE_OF_RUST ∧
    tryAllocFromFreeBlock 0x10000 0x11000 4064 8 =
      .ok ⟨0x10000, 0x10010, 0x10000, 0x10FF0, some (0x10FF0, 0x11000)⟩ ∧
    ((0x11000 - 0x10FF0 : Nat) < FREE_HEADER_SIZE_OF_RUST) ∧
    heapAlloc ⟨0x10000, 0x11000⟩ 0x10000 ⟨none, none, 4096⟩ 4064 8 =
      .ok 0x10010 (some (0x10FF0, ⟨none, none, 16⟩)) (0x10000, 0x10000, 0x10FF0) ∧
    (0x10FF0 + FREE_HEADER_SIZE_OF_RUST > 0x11000) ∧
    tryAllocFromFreeBlock 0x10000 0x10FEF 4064 8 = .fail ∧
    heapAlloc ⟨0x10000, 0x11000⟩ 0x10000 ⟨none, none, 0xFEF⟩ 4064 8 = .null :=
  ⟨by decide, by decide, by decide, by decide, by decide, by decide,
   by decide, by decide, by decide⟩

/-! ## Kernel bitmap frame allocator (kernel/src/kmem/phys.rs)

The bitmap is a zeroed byte array (`write_bytes(ptr, 0, len)`), embedded as
a function from byte index to byte value.  `Bitmap::write(frame,
Allocated)` ORs `1 << (7 - idx % 8)` into byte `idx / 8`;
`Bitmap::read` shifts the byte right by `7 - idx % 8` and masks with 1.
`PhysFrame::idx()` (common/src/addr.rs, not in the snapshot) is the frame
number, `base / PAGE_SIZE`; `len_bytes` is `len * PAGE_SIZE`.  Both are
modelled from the spec (§3.1, §4.6). -/

def bitmapWriteAllocated (m : Nat → Nat) (idx : Nat) : Nat → Nat :=
  fun b => if b = idx / 8 then m (idx / 8) ||| (1 <<< (7 - idx % 8)) else m b

def bitmapReadAllocated (m : Nat → Nat) (idx : Nat) : Bool :=
  ((m (idx / 8)) >>> (7 - idx % 8)) &&& 1 != 0

theorem bitmapReadAllocated_eq_testBit (m : Nat → Nat) (idx : Nat) :
    bitmapReadAllocated m idx = (m (idx / 8)).testBit (7 - idx % 8) := by
  unfold bitmapReadAllocated
  rw [Nat.and_one_is_mod, Nat.shiftRight_eq_div_pow, Nat.testBit_to_div_mod]
  have h2 : m (idx / 8) / 2 ^ (7 - idx % 8) % 2 = 0 ∨
      m (idx / 8) / 2 ^ (7 - idx % 8) % 2 = 1 := by omega
  rcases h2 with h | h <;> simp [h]

theorem bitmapRead_iff_mask (m : Nat → Nat) (idx : Nat) :
    bitmapReadAllocated m idx = true ↔
      m (idx / 8) &&& (1 <<< (7 - idx % 8)) ≠ 0 := by
  rw [bitmapReadAllocated_eq_testBit, Nat.one_shiftLeft, Nat.and_two_pow]
  cases h : (m (idx / 8)).testBit (7 - idx % 8) <;> simp [h]

theorem bitmapWrite_sets (m : Nat → Nat) (idx : Nat) :
    bitmapReadAllocated (bitmapWriteAllocated m idx) idx = true := by
  rw [bitmapReadAllocated_eq_testBit]
  unfold bitmapWriteAllocated
  rw [if_pos rfl, Nat.testBit_lor, testBit_one_shift]
  simp

theorem bitmapWrite_preserves (m : Nat → Nat) (idx j : Nat)
    (h : bitmapReadAllocated m j = true) :
    bitmapReadAllocated (bitmapWriteAllocated m idx) j = true := by
  rw [bitmapReadAllocated_eq_testBit] at h ⊢
  unfold bitmapWriteAllocated
  by_cases hb : j / 8 = idx / 8
  · rw [if_pos hb, Nat.testBit_lor, ← hb, h]
    simp
  · rw [if_neg hb]
    exact h

theorem foldl_bitmapWrite_read (l : List Nat) :
    ∀ (m : Nat → Nat) (idx : Nat),
      (idx ∈ l ∨ bitmapReadAllocated m idx = true) →
      bitmapReadAllocated (l.foldl bitmapWriteAllocated m) idx = true := by
  induction l with
  | nil =>
    intro m idx h
    rcases h with h | h
    · simp at h
    · simpa using h
  | cons a l ih =>
    intro m idx h
    rw [List.foldl_cons]
    rcases h with h | h
    · rcases List.mem_cons.mp h with rfl | hmem
      · exact ih _ _ (Or.inr (bitmapWrite_sets m idx))
      · exact ih _ _ (Or.inl hmem)
    · exact ih _ _ (Or.inr (bitmapWrite_preserves m a idx h))

def regionsEnd (regions : List MemRegion) : Nat :=
  regions.foldl (fun acc r => max acc (memRegionAsRange r).stop) 0

def pfaNumFrames (regions : List MemRegion) : Nat :=
  (rangeExclusive 0 (regionsEnd regions)).len

/-- `num_frames.div_ceil(8)`. -/
def pfaRequiredBytes (regions : List MemRegion) : Nat :=
  (pfaNumFrames regions + 8 - 1) / 8

def pfaStorageRegion (regions : List MemRegion) : Option MemRegion :=
  regions.find? (fun r =>
    decide ((memRegionAsRange r).len * PAGE_SIZE > pfaRequiredBytes regions) &&
    (r.ty == RegionType.Usable))

def pfaStorageFrames (regions : List MemRegion) : PageRange :=
  match pfaStorageRegion regions with
  | none => ⟨0, 0⟩
  | some u => rangeInclusive (pageContaining u.start)
      (pageContaining (u.start + pfaRequiredBytes regions - 1))

/-- The bitmap as left by `PhysFrameAllocator::new`: zeroed storage, then
every frame of every non-Usable region marked allocated, then the frames of
the bitmap storage itself; `none` is the `expect` panic when no usable
region can hold the bitmap. -/
def pfaBitmap (regions : List MemRegion) : Option (Nat → Nat) :=
  match pfaStorageRegion regions with
  | none => none
  | some _ =>
    let m0 : Nat → Nat := fun _ => 0
    let m1 := regions.foldl (fun m r =>
        if r.ty ≠ RegionType.Usable then
          (memRegionAsRange r).pageList.foldl
            (fun m f => bitmapWriteAllocated m (f / PAGE_SIZE)) m
        else m) m0
    some ((pfaStorageFrames regions).pageList.foldl
      (fun m f => bitmapWriteAllocated m (f / PAGE_SIZE)) m1)

theorem regions_fold_read (regions : List MemRegion) :
    ∀ (m : Nat → Nat) (idx : Nat),
      ((∃ r ∈ regions, r.ty ≠ RegionType.Usable ∧
          idx ∈ (memRegionAsRange r).pageList.map (fun f => f / PAGE_SIZE)) ∨
        bitmapReadAllocated m idx = true) →
      bitmapReadAllocated (regions.foldl (fun m r =>
          if r.ty ≠ RegionType.Usable then
            (memRegionAsRange r).pageList.foldl
              (fun m f => bitmapWriteAllocated m (f / PAGE_SIZE)) m
          else m) m) idx = true := by
  induction regions with
  | nil =>
    intro m idx h
    rcases h with h | h
    · obtain ⟨r, hr, _⟩ := h
      simp at hr
    · simpa using h
  | cons r rs ih =>
    intro m idx h
    rw [List.foldl_cons]
    have hstep : ∀ (mm : Nat → Nat),
        (idx ∈ (memRegionAsRange r).pageList.map (fun f => f / PAGE_SIZE) ∧
          r.ty ≠ RegionType.Usable) ∨ bitmapReadAllocated mm idx = true →
        bitmapReadAllocated (if r.ty ≠ RegionType.Usable then
          (memRegionAsRange r).pageList.foldl
            (fun m f => bitmapWriteAllocated m (f / PAGE_SIZE)) mm
          else mm) idx = true := by
      intro mm hh
      rcases hh with ⟨hmem, hty⟩ | hread
      · rw [if_pos hty]
        rw [← List.foldl_map]
        exact foldl_bitmapWrite_read _ _ _ (Or.inl hmem)
      · by_cases hty : r.ty ≠ RegionType.Usable
        · rw [if_pos hty]
          rw [← List.foldl_map]
          exact foldl_bitmapWrite_read _ _ _ (Or.inr hread)
        · rw [if_neg hty]
          exact hread
    rcases h with h | h
    · obtain ⟨r2, hr2, hty2, hmem2⟩ := h
      rcases List.mem_cons.mp hr2 with rfl | hr2tail
      · exact ih _ _ (Or.inr (hstep m (Or.inl ⟨hmem2, hty2⟩)))
      · exact ih _ _ (Or.inl ⟨r2, hr2tail, hty2, hmem2⟩)
    · exact ih _ _ (Or.inr (hstep m (Or.inr h)))

/-- Claim C9: immediately after `PhysFrameAllocator::new(regions)` returns,
the bitmap bit of every frame of a non-Usable region and of every frame
consumed by the bitmap storage is 1 (allocated), where the bit for frame
index `i` lives in byte `i / 8` under the MSB-first mask
`1 << (7 - i % 8)`. -/
theorem c9_bitmap_marks_allocated (regions : List MemRegion)
    (bm : Nat → Nat) (f : Nat)
    (hbm : pfaBitmap regions = some bm)
    (hmem : (∃ r ∈ regions, r.ty ≠ RegionType.Usable ∧
        f ∈ (memRegionAsRange r).pageList) ∨
      f ∈ (pfaStorageFrames regions).pageList) :
    bm (f / PAGE_SIZE / 8) &&& (1 <<< (7 - (f / PAGE_SIZE) % 8)) ≠ 0 := by
  rw [← bitmapRead_iff_mask]
  unfold pfaBitmap at hbm
  cases hfind : pfaStorageRegion regions with
  | none =>
    rw [hfind] at hbm
    simp at hbm
  | some u =>
    rw [hfind] at hbm
    simp only [Option.some.injEq] at hbm
    subst hbm
    rw [← List.foldl_map]
    apply foldl_bitmapWrite_read
    rcases hmem with h | h
    · right
      apply regions_fold_read
      left
      obtain ⟨r, hr, hty, hf⟩ := h
      exact ⟨r, hr, hty, List.mem_map_of_mem _ hf⟩
    · left
      exact List.mem_map_of_mem _ h

def c9DemoRegions : List MemRegion :=
  [⟨0, 0x100, RegionType.Usable⟩, ⟨0x100000, 0x100, RegionType.Allocated⟩,
   ⟨0x200000, 0xFE00, RegionType.Usable⟩]

def c9DemoBitmap : Nat → Nat := (pfaBitmap c9DemoRegions).getD (fun _ => 0)

/-- Witness for C9: frame `0x100000` — the first frame of the Allocated
region of the spec's bitmap-construction scenario — is marked allocated. -/
theorem c9_bitmap_marks_allocated_witness :
    c9DemoBitmap (0x100000 / PAGE_SIZE / 8) &&&
      (1 <<< (7 - (0x100000 / PAGE_SIZE) % 8)) ≠ 0 :=
  c9_bitmap_marks_allocated c9DemoRegions c9DemoBitmap 0x100000 rfl
    (Or.inl ⟨⟨0x100000, 0x100, RegionType.Allocated⟩, by decide, by decide,
      by decide⟩)

end UgoOS
